import Mathlib

set_option maxHeartbeats 1000000
set_option autoImplicit false

/-!
Shallow embedding of the incremental crawl / dedup / upsert pipeline of the
`auto-update-tfc` repository (`src/main.py` and `src/es_Upload.py`), together
with proofs settling the frozen claims about it.

External collaborators (the HTTP transport, the BeautifulSoup query surface,
the OpenAI embedding endpoint, the `hashlib`/`tiktoken`/`random` libraries and
the Elasticsearch client) are modelled as explicit parameters or as a small
concrete store model; the code of the two source files is translated
function by function.
-/

/-! ## JSON-like values (the Python data handled by the pipeline) -/

/-- JSON-like values modelling the Python scalars, lists and dicts that the
pipeline passes around.  Numbers are modelled as integers; none of the claims
under verification depends on the value of a numeric field. -/
inductive JVal where
  | null : JVal
  | str : String → JVal
  | num : Int → JVal
  | bool : Bool → JVal
  | arr : List JVal → JVal
  | obj : List (String × JVal) → JVal

/-- `value is None`. -/
def JVal.isNull : JVal → Bool
  | .null => true
  | _ => false

/-- `value == ""` (true only for the empty string, as in Python). -/
def JVal.isEmptyStr : JVal → Bool
  | .str s => if s = "" then true else false
  | _ => false

/-- Python truthiness of a value (`not value`): `None`, `""`, `0`, `False`,
`[]` and `{}` are falsy. -/
def JVal.falsy : JVal → Bool
  | .null => true
  | .str s => if s = "" then true else false
  | .num n => if n = 0 then true else false
  | .bool b => !b
  | .arr xs => xs.isEmpty
  | .obj fs => fs.isEmpty

/-- A Python dict, modelled as an association list with the keys in insertion
order (the order `dict.items()` iterates in). -/
abbrev Document := List (String × JVal)

/-- `k in d` / `d.get(k)`: the value stored under key `k`. -/
def lookupKey (d : Document) (k : String) : Option JVal :=
  match d with
  | [] => none
  | (k', v) :: rest => if k' = k then some v else lookupKey rest k

/-- `k in d`. -/
def hasKey (d : Document) (k : String) : Bool :=
  (lookupKey d k).isSome

/-- `d[k] = v` on a Python dict: overwrite in place if the key exists
(keeping its position), append otherwise. -/
def setKey (d : Document) (k : String) (v : JVal) : Document :=
  match d with
  | [] => [(k, v)]
  | (k', v') :: rest => if k' = k then (k, v) :: rest else (k', v') :: setKey rest k v

/-- `d.get(k, '')` for the string-valued fields the crawler produces
(`title`, `date`, `article_id`, `full_content`, ...). -/
def getStr (d : Document) (k : String) : String :=
  match lookupKey d k with
  | some (.str s) => s
  | _ => ""

/-- The whitespace set of Python's `str.strip()` (on the ASCII whitespace
the pipeline's strings can contain). -/
def isSpaceChar (c : Char) : Bool :=
  c = ' ' || c = '\t' || c = '\n' || c = '\r' || c = '\x0b' || c = '\x0c'

/-- `s.strip()`. -/
def pyStrip (s : String) : String :=
  String.mk (((s.data.dropWhile isSpaceChar).reverse.dropWhile isSpaceChar).reverse)

/-! ## Pipeline Driver (`main_process`, src/main.py lines 262-559)

The driver is modelled at the granularity of entry titles: fetching and
parsing a listing page is a collaborator concern, so a page is given directly
as the list of titles of its `fact-check-reporter-*` entries (an entry whose
title element is missing is represented by the empty string, which the code
skips), together with whether the page had any `li.kb-query-item` articles at
all and whether it had an `a.next.page-numbers` button.  The outcome of
`embedding_and_save` for an entry (upload status, and whether the
`backup_to_jsonl` append succeeded) is abstracted by the parameter `pres`. -/

/-- The `status` field of the dict returned by `embedding_and_save`. -/
inductive ProcStatus where
  | success
  | skip
  | error
deriving DecidableEq

/-- One listing page, as served by the site for a given page number. -/
structure Page where
  /-- whether `soup.select('li.kb-query-item')` was non-empty -/
  hasArticles : Bool
  /-- the extracted titles of the `fact-check-reporter-*` entries, in page
  order; `""` stands for an entry whose title is missing or empty -/
  entries : List String
  /-- whether `soup.select_one('a.next.page-numbers')` found a button -/
  hasNext : Bool

/-- The mutable run state of `main_process`: the statistics counters, the
growing backup ledger (`report_uploaded.jsonl`, read by the intra-run
duplicate check and appended to by `backup_to_jsonl`), the
`duplicate_found` flag and `first_article_title`. -/
structure RunState where
  total : Nat
  okCount : Nat
  skipCount : Nat
  errCount : Nat
  backupCount : Nat
  ledger : List String
  dup : Bool
  firstTitle : Option String

/-- `last_crawled_title and title == last_crawled_title` (Python truthiness:
an absent or empty cursor never matches). -/
def lastMatches (last : Option String) (t : String) : Bool :=
  match last with
  | none => false
  | some l => if l = "" then false else if t = l then true else false

/-- One iteration of the per-entry loop of `main_process` (src/main.py lines
325-532): skip on missing/empty title, skip on an intra-run ledger duplicate,
stop on the cross-run cursor, otherwise process the entry (count it, record
the first title, run `embedding_and_save` and update the counters, appending
the record to the backup ledger when the backup write succeeded). -/
def processEntry (pres : String → ProcStatus × Bool) (last : Option String)
    (s : RunState) (t : String) : RunState :=
  if s.dup then s
  else if t = "" then s
  else if s.ledger.contains t then s
  else if lastMatches last t then { s with dup := true }
  else
    let r := pres t
    { s with
      total := s.total + 1
      firstTitle := match s.firstTitle with
        | none => some t
        | some f => some f
      okCount := if r.1 = .success then s.okCount + 1 else s.okCount
      skipCount := if r.1 = .skip then s.skipCount + 1 else s.skipCount
      errCount := if r.1 = .error then s.errCount + 1 else s.errCount
      backupCount := if r.2 then s.backupCount + 1 else s.backupCount
      ledger := if r.2 then s.ledger ++ [t] else s.ledger }

/-- The entry loop over one page (`for article_info in reporter_articles`). -/
def processPage (pres : String → ProcStatus × Bool) (last : Option String)
    (s : RunState) (p : Page) : RunState :=
  p.entries.foldl (processEntry pres last) s

/-- The page loop of `main_process` (`while not duplicate_found and page <=
max_pages`): `fuel` is the number of page fetches still allowed by
`max_pages`, and the pages are consumed in the order the site serves them for
`pg=1,2,...`; running past the listing is the same as an empty page.  The
loop stops on a page with no articles, on the duplicate flag, or when the
next-page button is absent. -/
def runPages (pres : String → ProcStatus × Bool) (last : Option String) :
    Nat → List Page → RunState → RunState
  | 0, _, s => s
  | _ + 1, [], s => s
  | fuel + 1, p :: rest, s =>
    if s.dup then s
    else if !p.hasArticles then s
    else
      let s' := processPage pres last s p
      if s'.dup then s'
      else if !p.hasNext then s'
      else runPages pres last fuel rest s'

/-- The initial run state: zero counters, the pre-existing backup ledger
`L`, no duplicate found, no first title yet. -/
def initState (L : List String) : RunState :=
  ⟨0, 0, 0, 0, 0, L, false, none⟩

/-- `main_process(max_pages)` (src/main.py lines 262-559): run the page loop
from page 1, then apply the cursor-update rule of lines 544-547.  The second
component is the cursor write performed by `update_last_crawled_title`:
`some t` when the ledger cursor was overwritten with `t`, `none` when no
write happened (the cursor keeps its previous value). -/
def main_process (pres : String → ProcStatus × Bool) (last : Option String)
    (L : List String) (pages : List Page) (maxPages : Nat) :
    RunState × Option String :=
  let s := runPages pres last maxPages pages (initState L)
  (s, if 0 < s.total ∧ s.firstTitle ≠ none ∧ s.dup = false then s.firstTitle else none)

/-! ## Decimal / hexadecimal string helpers -/

/-- The character of one decimal digit. -/
def decChar (d : Nat) : Char := Char.ofNat (48 + d)

/-- The decimal digits of `n`, most significant first (`str(n)` in Python). -/
def natDigits (n : Nat) : List Char :=
  if _h : n < 10 then [decChar n]
  else natDigits (n / 10) ++ [decChar (n % 10)]
termination_by n
decreasing_by omega

/-- `str(n)` for a natural number. -/
def pyStr (n : Nat) : String := String.mk (natDigits n)

/-- `%02d`-style strftime zero padding (all month/day/hour/minute/second
components the pipeline renders are below 100). -/
def pad2 (n : Nat) : List Char := [decChar (n / 10 % 10), decChar (n % 10)]

/-- Four decimal digits.  The platform's strftime `%Y` prints the year
unpadded, so this is its rendering exactly for the years from 1000 to 9999;
it is used below only for run-day renders, whose year has four digits. -/
def pad4 (n : Nat) : List Char :=
  [decChar (n / 1000 % 10), decChar (n / 100 % 10), decChar (n / 10 % 10), decChar (n % 10)]

/-- `\d` of the CPython `_strptime` field regexes. -/
def isDig (c : Char) : Bool := 48 ≤ c.toNat && c.toNat ≤ 57

/-- The numeric value of a decimal digit character. -/
def digVal (c : Char) : Nat := c.toNat - 48

/-- A character class given by a (decimal) code range. -/
def chRange (lo hi : Nat) (c : Char) : Bool := lo ≤ c.toNat && c.toNat ≤ hi

/-! ## `_format_date` (src/es_Upload.py lines 21-46)

`datetime.strptime` (CPython `_strptime.TimeRE.pattern`) first replaces
every whitespace run of the format string by `\s+`, then compiles each
directive to an ordered alternation: `%Y ↦ \d{4}`,
`%m ↦ 1[0-2]|0[1-9]|[1-9]`, `%d ↦ 3[0-1]|[1-2]\d|0[1-9]|[1-9]| [1-9]`,
`%H ↦ 2[0-3]|[0-1]\d|\d`, `%M ↦ [0-5]\d|\d`, `%S ↦ 6[0-1]|[0-5]\d|\d`, and
requires the whole input to be consumed.  First-match selection of the
alternatives coincides with full regex backtracking for the five formats
used here: a directive's digit-initial alternatives only disagree on how
many digits they take, and the token that follows a directive (a `/`, `-`
or `:` literal, a whitespace run, or the end of the format) never accepts a
digit, so a longer alternative never steals a character the rest of the
pattern needed; the space-initial last alternative of `%d` overlaps none of
its digit-initial ones; and the greedy `\s+` is always followed by a
digit-initial directive, so shortening the whitespace run can never help. -/

/-- A two-character alternative of a field regex, yielding its value. -/
def alt2 (p1 p2 : Char → Bool) : List Char → Option (Nat × List Char)
  | a :: b :: rest => if p1 a && p2 b then some (digVal a * 10 + digVal b, rest) else none
  | _ => none

/-- A one-character alternative of a field regex. -/
def alt1 (p : Char → Bool) : List Char → Option (Nat × List Char)
  | a :: rest => if p a then some (digVal a, rest) else none
  | [] => none

/-- The `\d{4}` pattern of `%Y`. -/
def alt4dig : List Char → Option (Nat × List Char)
  | a :: b :: c :: d :: rest =>
    if isDig a && isDig b && isDig c && isDig d then
      some (((digVal a * 10 + digVal b) * 10 + digVal c) * 10 + digVal d, rest)
    else none
  | _ => none

/-- The (Unicode) whitespace class `\s` of Python's `re` module. -/
def isWsChar (c : Char) : Bool :=
  (9 ≤ c.toNat && c.toNat ≤ 13) || (28 ≤ c.toNat && c.toNat ≤ 31) || c.toNat = 32 ||
  c.toNat = 133 || c.toNat = 160 || c.toNat = 5760 || (8192 ≤ c.toNat && c.toNat ≤ 8202) ||
  c.toNat = 8232 || c.toNat = 8233 || c.toNat = 8239 || c.toNat = 8287 || c.toNat = 12288

/-- The `\s+` that a whitespace run of the format compiles to: at least one
whitespace character, consumed greedily (the directive that follows in every
format here starts with a digit, which is never whitespace, so the maximal
run is the only viable one). -/
def altWs : List Char → Option (Nat × List Char)
  | c :: rest => if isWsChar c then some (0, rest.dropWhile isWsChar) else none
  | [] => none

/-- One directive, literal, or whitespace run of a strptime format
string. -/
inductive Tok where
  | lit : Char → Tok
  | ws : Tok
  | year : Tok
  | month : Tok
  | day : Tok
  | hour : Tok
  | minute : Tok
  | second : Tok

/-- The ordered alternatives of each token's regex (a literal of these
formats — `/`, `-`, `:` — consumes exactly its own character; the formats'
spaces compile to `.ws`, i.e. `\s+`). -/
def tokAlts : Tok → List (List Char → Option (Nat × List Char))
  | .lit c => [fun cs => match cs with
      | c' :: rest => if c' = c then some (0, rest) else none
      | [] => none]
  | .ws => [altWs]
  | .year => [alt4dig]
  | .month => [alt2 (fun c => c = '1') (chRange 48 50),
               alt2 (fun c => c = '0') (chRange 49 57),
               alt1 (chRange 49 57)]
  | .day => [alt2 (fun c => c = '3') (chRange 48 49),
             alt2 (chRange 49 50) isDig,
             alt2 (fun c => c = '0') (chRange 49 57),
             alt1 (chRange 49 57),
             alt2 (fun c => c = ' ') (chRange 49 57)]
  | .hour => [alt2 (fun c => c = '2') (chRange 48 51),
              alt2 (chRange 48 49) isDig,
              alt1 isDig]
  | .minute => [alt2 (chRange 48 53) isDig, alt1 isDig]
  | .second => [alt2 (fun c => c = '6') (chRange 48 49),
                alt2 (chRange 48 53) isDig,
                alt1 isDig]

/-- The parsed components of a datetime. -/
structure DT where
  year : Nat
  month : Nat
  day : Nat
  hour : Nat
  minute : Nat
  second : Nat
deriving DecidableEq

/-- Store a matched directive value. -/
def setTok (dt : DT) : Tok → Nat → DT
  | .lit _, _ => dt
  | .ws, _ => dt
  | .year, v => { dt with year := v }
  | .month, v => { dt with month := v }
  | .day, v => { dt with day := v }
  | .hour, v => { dt with hour := v }
  | .minute, v => { dt with minute := v }
  | .second, v => { dt with second := v }

/-- Try the ordered alternatives of one directive. -/
def firstAlt (alts : List (List Char → Option (Nat × List Char))) (cs : List Char) :
    Option (Nat × List Char) :=
  match alts with
  | [] => none
  | a :: rest =>
    match a cs with
    | some r => some r
    | none => firstAlt rest cs

/-- Match a whole format against a whole string. -/
def matchToks : List Tok → List Char → DT → Option DT
  | [], [], dt => some dt
  | [], _ :: _, _ => none
  | tok :: toks, cs, dt =>
    match firstAlt (tokAlts tok) cs with
    | some (v, rest) => matchToks toks rest (setTok dt tok v)
    | none => none

/-- Gregorian leap year, as in `datetime`. -/
def isLeap (y : Nat) : Bool := (y % 4 = 0 && y % 100 ≠ 0) || y % 400 = 0

/-- Length of a month, as validated by the `datetime` constructor. -/
def daysInMonth (y m : Nat) : Nat :=
  if m = 2 then (if isLeap y then 29 else 28)
  else if m = 4 ∨ m = 6 ∨ m = 9 ∨ m = 11 then 30
  else 31

/-- The strptime defaults for directives a format does not set. -/
def strptimeDefault : DT := ⟨1900, 1, 1, 0, 0, 0⟩

/-- `datetime.strptime(s, fmt)`: the regex match, then the `datetime`
constructor's validation (the year must be at least 1, the day must fit the
month, and the second must be at most 59 — the `%S` regex admits the leap
seconds 60 and 61, which the constructor then rejects; months, hours and
minutes are already bounded by the field regexes). -/
def strptime (fmt : List Tok) (s : String) : Option DT :=
  match matchToks fmt s.data strptimeDefault with
  | some dt =>
    if 1 ≤ dt.year ∧ 1 ≤ dt.day ∧ dt.day ≤ daysInMonth dt.year dt.month ∧ dt.second ≤ 59
    then some dt else none
  | none => none

/-- `"%Y/%m/%d %H:%M"`. -/
def fmtSlashHM : List Tok :=
  [.year, .lit '/', .month, .lit '/', .day, .ws, .hour, .lit ':', .minute]

/-- `"%Y-%m-%d %H:%M:%S"`. -/
def fmtDashHMS : List Tok :=
  [.year, .lit '-', .month, .lit '-', .day, .ws, .hour, .lit ':', .minute, .lit ':', .second]

/-- `"%Y-%m-%d %H:%M"`. -/
def fmtDashHM : List Tok :=
  [.year, .lit '-', .month, .lit '-', .day, .ws, .hour, .lit ':', .minute]

/-- `"%Y/%m/%d"`. -/
def fmtSlash : List Tok := [.year, .lit '/', .month, .lit '/', .day]

/-- `"%Y-%m-%d"`. -/
def fmtDash : List Tok := [.year, .lit '-', .month, .lit '-', .day]

/-- The prioritized format list of `_format_date`. -/
def dateFormats : List (List Tok) := [fmtSlashHM, fmtDashHMS, fmtDashHM, fmtSlash, fmtDash]

/-- Try the formats in order, keeping the first that parses. -/
def tryFormats (fmts : List (List Tok)) (s : String) : Option DT :=
  match fmts with
  | [] => none
  | f :: rest =>
    match strptime f s with
    | some dt => some dt
    | none => tryFormats rest s

/-- `date_obj.strftime("%Y-%m-%dT%H:%M:%S")`: the platform's `%Y` prints
the year as an unpadded decimal number (four digits exactly for the years
from 1000 to 9999); the other fields are zero-padded to two digits. -/
def isoRender (dt : DT) : String :=
  String.mk (natDigits dt.year ++ '-' :: pad2 dt.month ++ '-' :: pad2 dt.day ++
    'T' :: pad2 dt.hour ++ ':' :: pad2 dt.minute ++ ':' :: pad2 dt.second)

/-- `ESUploader._format_date` (src/es_Upload.py lines 21-46): `None` on a
falsy input, otherwise the first format that parses decides the canonical
re-rendering; `None` when no format parses. -/
def format_date (s : String) : Option String :=
  if s = "" then none
  else
    match tryFormats dateFormats s with
    | some dt => some (isoRender dt)
    | none => none

/-! ## The sanitize step of `upload_single_document`
(src/es_Upload.py lines 93-150) -/

/-- The five time-related fields skipped by the cleaning pass. -/
def timeFieldsToExclude : List String :=
  ["time_articut_tagger", "time_date_conversion", "time_prewrite_summary",
   "time_text_embeddings", "total_processing_time"]

/-- The per-field cleaning (src/es_Upload.py lines 110-144): a `None` value
becomes `""`; a string under the two date keys is re-formatted when
`_format_date` succeeds and passed through otherwise; the direct elements of
a list (or tuple, modelled alike) value and the direct values of a dict
value have `None` replaced by `''`; every other value is kept unchanged. -/
def cleanField (k : String) (v : JVal) : JVal :=
  if v.isNull then .str ""
  else
    match v with
    | .str s =>
      if k = "dt" ∨ k = "date_created" then
        match format_date s with
        | some fd => .str fd
        | none => .str s
      else .str s
    | .arr xs => .arr (xs.map fun item => if item.isNull then .str "" else item)
    | .obj fs => .obj (fs.map fun kv => if kv.2.isNull then (kv.1, .str "") else kv)
    | w => w

/-- The whole sanitize step: skip the five time-related fields, clean every
remaining field in order. -/
def cleanDocument (d : Document) : Document :=
  (d.filter fun kv => !timeFieldsToExclude.contains kv.1).map fun kv => (kv.1, cleanField kv.1 kv.2)

/-! ## The document store model -/

/-- The slice of Elasticsearch state the two uploader functions interact
with for one index: whether the index exists, its mapping's field names, the
stored documents keyed by internal `_id` (allocated increasingly; searches
return hits in store order), and the next free `_id`. -/
structure Store where
  indexExists : Bool
  fields : List String
  docs : List (Nat × Document)
  nextId : Nat

/-- The field names of the mapping `upload_single_document` creates when the
index does not exist (src/es_Upload.py lines 153-175). -/
def defaultMappingFields : List String := ["pid", "category", "entity", "articut_result_obj"]

/-- The ensure-index step (src/es_Upload.py lines 152-175): create the index
with the fixed mapping when it does not exist. -/
def ensureIndex (store : Store) : Store :=
  if store.indexExists then store
  else { store with indexExists := true, fields := defaultMappingFields }

/-- The field set `get_index_fields` sees after the ensure-index step. -/
def effectiveFields (store : Store) : List String :=
  if store.indexExists then store.fields else defaultMappingFields

mutual
/-- Structural equality of values, as used by the `pid` term query. -/
def jvalBeq : JVal → JVal → Bool
  | .null, .null => true
  | .str a, .str b => a == b
  | .num a, .num b => a == b
  | .bool a, .bool b => a == b
  | .arr a, .arr b => jvalListBeq a b
  | .obj a, .obj b => jvalObjBeq a b
  | _, _ => false
def jvalListBeq : List JVal → List JVal → Bool
  | [], [] => true
  | a :: as, b :: bs => jvalBeq a b && jvalListBeq as bs
  | _, _ => false
def jvalObjBeq : List (String × JVal) → List (String × JVal) → Bool
  | [], [] => true
  | (k1, v1) :: as, (k2, v2) :: bs => k1 == k2 && jvalBeq v1 v2 && jvalObjBeq as bs
  | _, _ => false
end

/-- The `{ResultData, Result, Message}` response of `upload_single_document`,
with `ResultData` flattened to the components the claims inspect. -/
structure UploadResult where
  result : String
  message : String
  documentId : Option Nat
  operationType : Option String
  ignoredFields : List String

/-- `ESUploader.upload_single_document` (src/es_Upload.py lines 57-249):
validate, sanitize, create the index if missing, optionally restrict to the
index's known fields, look up by `pid` term query, then write with update or
create semantics (the forced refresh is the identity on the model).  The
`filtered_document['pid']` access raising `KeyError` when strict filtering
dropped the pid is the function's exception path, answered with `N`. -/
def upload_single_document (document : Document) (strict_fields : Bool) (store : Store) :
    UploadResult × Store :=
  if document.isEmpty then
    (⟨"N", "Document cannot be empty", none, none, []⟩, store)
  else if !hasKey document "pid" then
    (⟨"N", "Document must contain 'pid' field", none, none, []⟩, store)
  else
    let cleaned := cleanDocument document
    let store1 := ensureIndex store
    let filtered :=
      if strict_fields then cleaned.filter (fun kv => store1.fields.contains kv.1) else cleaned
    let ignored :=
      if strict_fields then (cleaned.map Prod.fst).filter (fun k => !store1.fields.contains k)
      else []
    match lookupKey filtered "pid" with
    | none =>
      (⟨"N", "Failed to upload document: 'pid'", none, none, []⟩, store1)
    | some pidv =>
      let suffix :=
        if ignored.isEmpty then ""
        else " (ignored fields: " ++ String.intercalate ", " ignored ++ ")"
      match store1.docs.find? (fun dc =>
          match lookupKey dc.2 "pid" with
          | some w => jvalBeq w pidv
          | none => false) with
      | some hit =>
        (⟨"Y", "Document successfully updated" ++ suffix, some hit.1, some "updated", ignored⟩,
         { store1 with docs := store1.docs.map fun dc => if dc.1 = hit.1 then (hit.1, filtered) else dc })
      | none =>
        (⟨"Y", "Document successfully created" ++ suffix, some store1.nextId, some "created", ignored⟩,
         { store1 with docs := store1.docs ++ [(store1.nextId, filtered)],
                       nextId := store1.nextId + 1 })

/-! ## `save_to_es` (src/main.py lines 65-213) -/

/-- `date.replace('-', '')`. -/
def removeDashes (s : String) : String := String.mk (s.data.filter fun c => c != '-')

/-- pid generation in `main_process` (src/main.py lines 408-415); `rand` is
the number drawn by `random.randint(300, 999)` in the non-deterministic
branch taken when the entry carries no stable id token. -/
def build_pid (rand : Nat) (date articleId : String) : String :=
  if articleId = "fact-check-reporter" then removeDashes date ++ pyStr rand
  else removeDashes date ++ articleId

/-- `int(c, 16)` digit value (md5 hexdigests are lowercase). -/
def hexVal (c : Char) : Nat :=
  if 48 ≤ c.toNat && c.toNat ≤ 57 then c.toNat - 48
  else if 97 ≤ c.toNat && c.toNat ≤ 102 then c.toNat - 87
  else if 65 ≤ c.toNat && c.toNat ≤ 70 then c.toNat - 55
  else 0

/-- `int(s, 16)` on a hex string. -/
def hexToNat (s : String) : Nat := s.data.foldl (fun a c => a * 16 + hexVal c) 0

/-- `s[-4:]`. -/
def lastFour (s : String) : String := String.mk (s.data.drop (s.data.length - 4))

/-- `s.zfill(w)` on a digit string. -/
def zfillStr (w : Nat) (s : String) : String :=
  if w ≤ s.data.length then s else String.mk (List.replicate (w - s.data.length) '0' ++ s.data)

/-- The deterministic md5 fallback serial of `save_to_es` (src/main.py lines
122-126): `str(int(md5(title).hexdigest()[-4:], 16) % 1000).zfill(3)`. -/
def mdSerial (hash : String) : String := zfillStr 3 (pyStr (hexToNat (lastFour hash) % 1000))

/-- The `-(\d{1,2})-`-part of the date regex: a greedy one-or-two digit
group followed by the literal dash (with the regex's backtracking). -/
def matchMonthDash : List Char → Option (String × List Char)
  | a :: b :: c :: rest =>
    if isDig a && isDig b && c = '-' then some (String.mk [a, b], rest)
    else if isDig a && b = '-' then some (String.mk [a], c :: rest)
    else none
  | [a, b] => if isDig a && b = '-' then some (String.mk [a], []) else none
  | _ => none

/-- The final `(\d{1,2})` group: greedy, nothing required after it. -/
def matchDayDigits : List Char → Option String
  | a :: b :: _ =>
    if isDig a && isDig b then some (String.mk [a, b])
    else if isDig a then some (String.mk [a])
    else none
  | [a] => if isDig a then some (String.mk [a]) else none
  | [] => none

/-- A match of `(\d{4})-(\d{1,2})-(\d{1,2})` anchored at the current
position. -/
def matchDateAt : List Char → Option (String × String × String)
  | y1 :: y2 :: y3 :: y4 :: '-' :: rest =>
    if isDig y1 && isDig y2 && isDig y3 && isDig y4 then
      match matchMonthDash rest with
      | some (ms, rest2) =>
        match matchDayDigits rest2 with
        | some ds => some (String.mk [y1, y2, y3, y4], ms, ds)
        | none => none
      | none => none
    else none
  | _ => none

/-- `re.search(r'(\d{4})-(\d{1,2})-(\d{1,2})', s)`: the groups of the
leftmost match. -/
def searchDate : List Char → Option (String × String × String)
  | [] => none
  | c :: rest =>
    match matchDateAt (c :: rest) with
    | some r => some r
    | none => searchDate rest

/-- `datetime.now().strftime("%Y-%m-%d")` for a run executing on calendar
day `(y, m, d)` (the year of an actual run day has four digits, where the
platform's unpadded `%Y` and `pad4` coincide). -/
def todayDashed (y m d : Nat) : String := String.mk (pad4 y ++ '-' :: pad2 m ++ '-' :: pad2 d)

/-- `datetime.now().strftime("%Y%m%d")`, on the same four-digit run-day
years. -/
def todayCompact (y m d : Nat) : String := String.mk (pad4 y ++ pad2 m ++ pad2 d)

/-- `date_obj.strftime("%Y%m%d")` of a parsed date (`%Y` unpadded, as in
`isoRender`). -/
def compactRender (dt : DT) : String :=
  String.mk (natDigits dt.year ++ pad2 dt.month ++ pad2 dt.day)

/-- The pid-ensuring step of `save_to_es` (src/main.py lines 95-126) for a
run executing on day `(ty, tm, td)`; `md5hex` is
`hashlib.md5(arg.encode('utf-8')).hexdigest()`.  When the regex finds no
`YYYY-M-D` in the date string, the code retries with a full
`datetime.strptime(date, "%Y-%m-%d")` parse — which can still succeed, e.g.
on a space-padded day such as `"2024-3- 5"` — and only when that parse also
fails does the `except` branch fall back to today's date. -/
def ensurePid (md5hex : String → String) (ty tm td : Nat) (data : Document) : Document :=
  let pidMissing :=
    match lookupKey data "pid" with
    | none => true
    | some v => v.falsy
  if pidMissing then
    let dPre :=
      match searchDate (getStr data "date").data with
      | some (ys, ms, ds) => ys ++ zfillStr 2 ms ++ zfillStr 2 ds
      | none =>
        match strptime fmtDash (getStr data "date") with
        | some dt => compactRender dt
        | none => todayCompact ty tm td
    let articleId := getStr data "article_id"
    if articleId ≠ "" then setKey data "pid" (.str (dPre ++ articleId))
    else setKey data "pid" (.str (dPre ++ mdSerial (md5hex (getStr data "title"))))
  else data

/-- The result dict of `save_to_es`; for a successful upload the uploader's
response is carried along. -/
structure SaveResult where
  result : String
  message : String
  existingId : Option Nat
  uploadRes : Option UploadResult

/-- The value-clearing pass of `save_to_es` (src/main.py lines 168-174):
keep the values that are neither `None` nor `""`, replace the rest by
`""`. -/
def saveClean (d : Document) : Document :=
  d.map fun kv => if !kv.2.isNull && !kv.2.isEmptyStr then kv else (kv.1, .str "")

/-- The per-attempt mutation of `data` in `save_to_es` (src/main.py lines
89-126): fill an empty/whitespace date with today's date, then ensure the
pid. -/
def dataStep (md5hex : String → String) (ty tm td : Nat) (data : Document) : Document :=
  ensurePid md5hex ty tm td
    (if pyStrip (getStr data "date") = "" then setKey data "date" (.str (todayDashed ty tm td))
     else data)

/-- The retry loop of `save_to_es` (src/main.py lines 65-213) with the
default `max_retries = 3`: `fuel` attempts remain and `attempt` is the
0-based index of the current one; `sf attempt` tells whether the
title-duplicate search raises on that attempt (the one collaborator failure
the claims exercise; the title-phrase match itself is modelled as equality
on the title field).  Mutations of `data` persist across attempts as they
do on the Python dict.  The third component lists the documents handed to
`upload_single_document`. -/
def saveLoop (md5hex : String → String) (ty tm td : Nat) (sf : Nat → Bool) :
    Nat → Nat → Document → Store → List Document → SaveResult × Store × List Document
  | 0, _, _, store, subs =>
    (⟨"N", "Unexpected error in save_to_es", none, none⟩, store, subs)
  | fuel + 1, attempt, data, store, subs =>
    if pyStrip (getStr data "title") = "" then
      (⟨"N", "article title must not be empty", none, none⟩, store, subs)
    else
      let data2 := dataStep md5hex ty tm td data
      let title := getStr data2 "title"
      let upload : Unit → SaveResult × Store × List Document := fun _ =>
        let cleaned := saveClean data2
        let ur := upload_single_document cleaned false store
        if ur.1.result = "Y" then
          ((⟨"Y", ur.1.message, none, some ur.1⟩ : SaveResult), ur.2, subs ++ [cleaned])
        else if attempt < 2 then
          saveLoop md5hex ty tm td sf fuel (attempt + 1) data2 ur.2 (subs ++ [cleaned])
        else
          (⟨"N", "Upload failed after 3 attempts: " ++ ur.1.message, none, none⟩, ur.2,
           subs ++ [cleaned])
      if title ≠ "" then
        if sf attempt then
          if attempt < 2 then saveLoop md5hex ty tm td sf fuel (attempt + 1) data2 store subs
          else upload ()
        else
          match store.docs.find? (fun dc => getStr dc.2 "title" == title) with
          | some hit =>
            (⟨"SKIP", "Document with same title already exists", some hit.1, none⟩, store, subs)
          | none => upload ()
      else upload ()

/-- `save_to_es(data)` with the default retry parameters. -/
def save_to_es (md5hex : String → String) (ty tm td : Nat) (sf : Nat → Bool)
    (data : Document) (store : Store) : SaveResult × Store × List Document :=
  saveLoop md5hex ty tm td sf 3 0 data store []

/-! ## Embedding truncation (src/main.py lines 49-62 and 238-243) -/

/-- The text actually submitted to the embedding endpoint by
`text_embeddings_3`; `encode`/`decode` are the tiktoken tokenizer for the
target model. -/
def text_embeddings_3_payload (encode : String → List Nat) (decode : List Nat → String)
    (text : String) : String :=
  let tokens := encode text
  if tokens.length > 8000 then decode (tokens.take 8000) else text

/-- The embedding step of `embedding_and_save`: assign
`report['embeddings']`, calling the provider only on non-blank content.  The
second component counts the provider calls made. -/
def embeddingStep (emb : String → JVal) (report : Document) : Document × Nat :=
  if pyStrip (getStr report "full_content") ≠ "" then
    (setKey report "embeddings" (emb (getStr report "full_content")), 1)
  else (setKey report "embeddings" (.arr []), 0)

/-! ## Null-occurrence observations for the sanitize claims -/

mutual
/-- Whether a `None` occurs anywhere in the value, at any nesting depth. -/
def jvalHasNull : JVal → Bool
  | .null => true
  | .str _ => false
  | .num _ => false
  | .bool _ => false
  | .arr xs => jvalListHasNull xs
  | .obj fs => jvalObjHasNull fs
/-- `jvalHasNull` on each element of a list. -/
def jvalListHasNull : List JVal → Bool
  | [] => false
  | v :: vs => jvalHasNull v || jvalListHasNull vs
/-- `jvalHasNull` on each value of a field list. -/
def jvalObjHasNull : List (String × JVal) → Bool
  | [] => false
  | kv :: kvs => jvalHasNull kv.2 || jvalObjHasNull kvs
end

/-- Whether a `None` occurs anywhere in a document. -/
def docHasNull (d : Document) : Bool := jvalObjHasNull d

/-- No `None` at the nesting depths the cleaning pass visits: the value
itself, the direct elements of a list value, the direct values of a dict
value. -/
def shallowNoNull (v : JVal) : Bool :=
  match v with
  | .null => false
  | .arr xs => xs.all fun item => !item.isNull
  | .obj fs => fs.all fun kv => !kv.2.isNull
  | _ => true

/-! ## Association-list lemmas -/

theorem lookupKey_setKey_self (d : Document) (k : String) (v : JVal) :
    lookupKey (setKey d k v) k = some v := by
  induction d with
  | nil => simp [setKey, lookupKey]
  | cons kv rest ih =>
    obtain ⟨a, b⟩ := kv
    by_cases h : a = k
    · simp [setKey, h, lookupKey]
    · simp [setKey, h, lookupKey, ih]

theorem lookupKey_setKey_ne (d : Document) (k k' : String) (v : JVal) (h : k' ≠ k) :
    lookupKey (setKey d k v) k' = lookupKey d k' := by
  induction d with
  | nil => simp [setKey, lookupKey, Ne.symm h]
  | cons kv rest ih =>
    obtain ⟨a, b⟩ := kv
    by_cases ha : a = k
    · subst ha
      simp [setKey, lookupKey, Ne.symm h]
    · simp [setKey, ha, lookupKey, ih]

theorem getStr_setKey_ne (d : Document) (k k' : String) (v : JVal) (h : k' ≠ k) :
    getStr (setKey d k v) k' = getStr d k' := by
  simp [getStr, lookupKey_setKey_ne d k k' v h]

theorem lookupKey_mapVals (d : Document) (f : String → JVal → JVal) (k : String) :
    lookupKey (d.map fun kv => (kv.1, f kv.1 kv.2)) k = (lookupKey d k).map (f k) := by
  induction d with
  | nil => simp [lookupKey]
  | cons kv rest ih =>
    obtain ⟨a, b⟩ := kv
    by_cases h : a = k
    · subst h; simp [lookupKey]
    · simp [lookupKey, h, ih]

theorem lookupKey_filterKeys (d : Document) (p : String → Bool) (k : String) (hk : p k = true) :
    lookupKey (d.filter fun kv => p kv.1) k = lookupKey d k := by
  induction d with
  | nil => simp [lookupKey]
  | cons kv rest ih =>
    obtain ⟨a, b⟩ := kv
    by_cases h : a = k
    · subst h; simp [List.filter_cons, hk, lookupKey]
    · by_cases hp : p a
      · simp [List.filter_cons, hp, lookupKey, h, ih]
      · simp [List.filter_cons, hp, lookupKey, h, ih]

theorem getStr_of_none (d : Document) (k : String) (h : lookupKey d k = none) :
    getStr d k = "" := by
  simp [getStr, h]

theorem getStr_of_str (d : Document) (k s : String) (h : lookupKey d k = some (.str s)) :
    getStr d k = s := by
  simp [getStr, h]

theorem lookupKey_cleanDocument (d : Document) (k : String)
    (hk : timeFieldsToExclude.contains k = false) :
    lookupKey (cleanDocument d) k = (lookupKey d k).map (cleanField k) := by
  unfold cleanDocument
  rw [lookupKey_mapVals]
  rw [lookupKey_filterKeys d (fun x => !timeFieldsToExclude.contains x) k
    (by show (!timeFieldsToExclude.contains k) = true
        rw [hk]
        rfl)]

theorem saveClean_eq_mapVals (d : Document) :
    saveClean d = d.map fun kv =>
      (kv.1, if !kv.2.isNull && !kv.2.isEmptyStr then kv.2 else .str "") := by
  unfold saveClean
  apply List.map_congr_left
  intro kv _
  by_cases h : (!kv.2.isNull && !kv.2.isEmptyStr) = true
  · simp [h]
  · simp [h]

theorem lookupKey_saveClean (d : Document) (k : String) :
    lookupKey (saveClean d) k = (lookupKey d k).map
      (fun v => if !v.isNull && !v.isEmptyStr then v else .str "") := by
  rw [saveClean_eq_mapVals]
  exact lookupKey_mapVals d (fun _ v => if !v.isNull && !v.isEmptyStr then v else .str "") k

/-! ## C3: the sanitize step and null values -/

theorem cleanField_shallowNoNull (k : String) (v : JVal) :
    shallowNoNull (cleanField k v) = true := by
  cases v with
  | null => simp [cleanField, JVal.isNull, shallowNoNull]
  | str s =>
    by_cases hk : k = "dt" ∨ k = "date_created"
    · simp only [cleanField, JVal.isNull, Bool.false_eq_true, if_false, hk, if_true]
      cases format_date s <;> simp [shallowNoNull]
    · simp [cleanField, JVal.isNull, hk, shallowNoNull]
  | num n => simp [cleanField, JVal.isNull, shallowNoNull]
  | bool b => simp [cleanField, JVal.isNull, shallowNoNull]
  | arr xs =>
    simp only [cleanField, JVal.isNull, Bool.false_eq_true, if_false, shallowNoNull,
      List.all_map, List.all_eq_true]
    intro item _
    cases item <;> simp [JVal.isNull]
  | obj fs =>
    simp only [cleanField, JVal.isNull, Bool.false_eq_true, if_false, shallowNoNull,
      List.all_map, List.all_eq_true]
    intro kv _
    cases h2 : kv.2 <;> simp [JVal.isNull, h2]

/-- C3 (amended): after the sanitize step of `upload_single_document`, no
retained field value is null at the nesting depths the cleaning pass visits:
the value itself, the direct elements of a list value, and the direct values
of a dict value.  (Nulls nested two or more levels deep are passed through
unchanged; see the counterexample.) -/
theorem sanitize_no_shallow_null (d : Document) :
    ∀ kv ∈ cleanDocument d, shallowNoNull kv.2 = true := by
  intro kv hkv
  simp only [cleanDocument, List.mem_map] at hkv
  obtain ⟨a, _, rfl⟩ := hkv
  exact cleanField_shallowNoNull a.1 a.2

/-- Witness for the amended C3 theorem at a concrete document. -/
theorem sanitize_no_shallow_null_witness :
    shallowNoNull (JVal.str "") = true :=
  sanitize_no_shallow_null [("a", JVal.null)] ("a", JVal.str "") (List.Mem.head _)

/-- C3 counterexample: a null nested inside a list inside a list survives
the sanitize step — the cleaning only visits the top level of each field
value, so the claim's "arbitrarily deep nesting" fails on the code. -/
theorem sanitize_deep_null_survives :
    docHasNull (cleanDocument
      [("pid", JVal.str "p"), ("x", JVal.arr [JVal.arr [JVal.null]])]) = true := rfl

/-! ## C8: embedding truncation and the empty-content short-circuit -/

/-- C8: if the tokenized text exceeds 8000 tokens, the payload submitted to
the embedding provider is the decoding of exactly the first 8000 tokens; and
a record whose `full_content` is absent, empty or whitespace-only gets
`embeddings = []` with no provider call at all. -/
theorem embedding_truncation_and_short_circuit
    (encode : String → List Nat) (decode : List Nat → String) (text : String)
    (emb : String → JVal) (report : Document) :
    ((encode text).length > 8000 →
      text_embeddings_3_payload encode decode text = decode ((encode text).take 8000) ∧
      ((encode text).take 8000).length = 8000) ∧
    ((∀ v, lookupKey report "full_content" = some v → ∃ s, v = JVal.str s ∧ pyStrip s = "") →
      (embeddingStep emb report).2 = 0 ∧
      lookupKey (embeddingStep emb report).1 "embeddings" = some (JVal.arr [])) := by
  constructor
  · intro h
    constructor
    · simp [text_embeddings_3_payload, h]
    · simp [List.length_take]
      omega
  · intro h
    have hempty : pyStrip (getStr report "full_content") = "" := by
      cases hv : lookupKey report "full_content" with
      | none =>
        rw [getStr_of_none report _ hv]
        rfl
      | some v =>
        obtain ⟨s, rfl, hs⟩ := h v hv
        rw [getStr_of_str report _ s hv]
        exact hs
    unfold embeddingStep
    rw [if_neg (by simp [hempty])]
    exact ⟨rfl, lookupKey_setKey_self report "embeddings" (JVal.arr [])⟩

/-- Witness for C8: a 8001-token text is truncated to its first 8000 tokens,
and a record with empty `full_content` gets the empty embedding with zero
provider calls. -/
theorem embedding_truncation_and_short_circuit_witness :
    (text_embeddings_3_payload (fun _ => List.replicate 8001 0) (fun _ => "x") "t" =
      (fun _ : List Nat => "x") ((List.replicate 8001 (0 : Nat)).take 8000) ∧
      ((List.replicate 8001 (0 : Nat)).take 8000).length = 8000) ∧
    ((embeddingStep (fun _ => JVal.num 1) [("full_content", JVal.str "")]).2 = 0 ∧
      lookupKey (embeddingStep (fun _ => JVal.num 1) [("full_content", JVal.str "")]).1
        "embeddings" = some (JVal.arr [])) := by
  constructor
  · exact (embedding_truncation_and_short_circuit (fun _ => List.replicate 8001 0)
      (fun _ => "x") "t" (fun _ => JVal.num 1) []).1
      (by rw [show ((fun _ : String => List.replicate 8001 (0 : Nat)) "t").length =
        (List.replicate 8001 (0 : Nat)).length from rfl, List.length_replicate]; omega)
  · refine (embedding_truncation_and_short_circuit (fun _ => List.replicate 8001 0)
      (fun _ => "x") "t" (fun _ => JVal.num 1) [("full_content", JVal.str "")]).2 ?_
    intro v hv
    have h2 := (show lookupKey [("full_content", JVal.str "")] "full_content" =
      some (JVal.str "") from rfl).symm.trans hv
    exact ⟨"", (Option.some.inj h2).symm, rfl⟩

/-! ## C4: identifier determinism -/

/-- `int(s)` on a decimal digit string (the claim's "interpreted as an
integer" reading of the 3-digit suffix). -/
def decStrVal (s : String) : Nat := s.data.foldl (fun a c => a * 10 + (c.toNat - 48)) 0

theorem decChar_toNat : ∀ d, d < 10 → (decChar d).toNat = 48 + d := by decide

theorem isDig_decChar : ∀ d, d < 10 → isDig (decChar d) = true := by decide

theorem natDigits_eq_of_lt10 (n : Nat) (h : n < 10) : natDigits n = [decChar n] := by
  rw [natDigits]
  simp [h]

theorem natDigits_eq_of_ge10 (n : Nat) (h : ¬ n < 10) :
    natDigits n = natDigits (n / 10) ++ [decChar (n % 10)] := by
  conv_lhs => rw [natDigits]
  simp [h]

theorem natDigits_two (n : Nat) (h1 : 10 ≤ n) (h2 : n < 100) :
    natDigits n = [decChar (n / 10), decChar (n % 10)] := by
  rw [natDigits_eq_of_ge10 n (by omega), natDigits_eq_of_lt10 (n / 10) (by omega)]
  rfl

theorem natDigits_three (n : Nat) (h1 : 100 ≤ n) (h2 : n < 1000) :
    natDigits n = [decChar (n / 100), decChar (n / 10 % 10), decChar (n % 10)] := by
  rw [natDigits_eq_of_ge10 n (by omega), natDigits_two (n / 10) (by omega) (by omega)]
  have hdiv : n / 10 / 10 = n / 100 := by omega
  rw [hdiv]
  rfl

/-- The 3-digit zero-filled decimal rendering of `n < 1000`: its three
characters, with the original leading digits. -/
theorem zfill3_pyStr (n : Nat) (hn : n < 1000) :
    (zfillStr 3 (pyStr n)).data =
      [decChar (n / 100), decChar (n / 10 % 10), decChar (n % 10)] := by
  by_cases h1 : n < 10
  · have h0 : n / 100 = 0 := by omega
    have h2 : n / 10 % 10 = 0 := by omega
    have h3 : n % 10 = n := by omega
    rw [zfillStr, pyStr, natDigits_eq_of_lt10 n h1, h0, h2, h3]
    rfl
  · by_cases h2 : n < 100
    · have h0 : n / 100 = 0 := by omega
      have h4 : n / 10 % 10 = n / 10 := by omega
      rw [zfillStr, pyStr, natDigits_two n (by omega) h2, h0, h4]
      rfl
    · rw [zfillStr, pyStr, natDigits_three n (by omega) hn]
      rfl

theorem decStrVal_three (a b c : Char) :
    decStrVal (String.mk [a, b, c]) =
      ((a.toNat - 48) * 10 + (b.toNat - 48)) * 10 + (c.toNat - 48) := by
  simp [decStrVal, List.foldl]

/-- Correctness of the md5 serial rendering: three decimal digits whose
value is the original number. -/
theorem mdSerial_render (n : Nat) (hn : n < 1000) :
    (zfillStr 3 (pyStr n)).data.length = 3 ∧
    decStrVal (zfillStr 3 (pyStr n)) = n ∧
    ∀ c ∈ (zfillStr 3 (pyStr n)).data, isDig c = true := by
  have hdata := zfill3_pyStr n hn
  refine ⟨by rw [hdata]; rfl, ?_, ?_⟩
  · have : zfillStr 3 (pyStr n) = String.mk [decChar (n / 100), decChar (n / 10 % 10), decChar (n % 10)] := by
      cases hz : zfillStr 3 (pyStr n) with
      | mk l => rw [hz] at hdata; simp at hdata; rw [hdata]
    rw [this, decStrVal_three]
    rw [decChar_toNat (n / 100) (by omega), decChar_toNat (n / 10 % 10) (by omega),
      decChar_toNat (n % 10) (by omega)]
    omega
  · intro c hc
    rw [hdata] at hc
    simp only [List.mem_cons, List.not_mem_nil, or_false] at hc
    rcases hc with rfl | rfl | rfl
    · exact isDig_decChar (n / 100) (by omega)
    · exact isDig_decChar (n / 10 % 10) (by omega)
    · exact isDig_decChar (n % 10) (by omega)

/-- The md5 fallback pid path of `save_to_es`: pid missing or falsy, no
`article_id`, and the record's date contains a `YYYY-M-D` substring. -/
theorem ensurePid_md5_path (md5hex : String → String) (ty tm td : Nat) (data : Document)
    (ys ms ds : String)
    (hpid : (match lookupKey data "pid" with
      | none => true
      | some v => v.falsy) = true)
    (hart : getStr data "article_id" = "")
    (hdate : searchDate (getStr data "date").data = some (ys, ms, ds)) :
    ensurePid md5hex ty tm td data =
      setKey data "pid"
        (.str (ys ++ zfillStr 2 ms ++ zfillStr 2 ds ++ mdSerial (md5hex (getStr data "title")))) := by
  unfold ensurePid
  rw [hpid]
  simp only [if_true, hdate, hart]
  rw [if_neg (by simp)]

/-- C4: identifier assignment is deterministic on its two non-random paths.
With a stable id token (`article_id ≠ 'fact-check-reporter'`), the pid built
by `main_process` is the date with dashes removed followed by the token,
independent of the drawn random number (hence identical on repeated calls).
On the upload-time md5 fallback (pid missing, no `article_id`, date matching
`YYYY-M-D`), the assigned pid is a pure function of the record — independent
of the day the run executes — equal to the regex-derived zero-filled date
prefix followed by the md5 serial; and that serial is exactly three decimal
digits whose integer value is the last four hex digits of `md5(title)`
interpreted as an integer, mod 1000. -/
theorem identifier_determinism (rand1 rand2 : Nat) (date tok : String)
    (md5hex : String → String) (title : String)
    (data : Document) (ty1 tm1 td1 ty2 tm2 td2 : Nat) (ys ms ds : String) :
    (tok ≠ "fact-check-reporter" →
      build_pid rand1 date tok = removeDashes date ++ tok ∧
      build_pid rand1 date tok = build_pid rand2 date tok) ∧
    ((match lookupKey data "pid" with
        | none => true
        | some v => v.falsy) = true →
      getStr data "article_id" = "" →
      searchDate (getStr data "date").data = some (ys, ms, ds) →
      ensurePid md5hex ty1 tm1 td1 data =
        setKey data "pid"
          (.str (ys ++ zfillStr 2 ms ++ zfillStr 2 ds ++
            mdSerial (md5hex (getStr data "title")))) ∧
      ensurePid md5hex ty1 tm1 td1 data = ensurePid md5hex ty2 tm2 td2 data) ∧
    ((mdSerial (md5hex title)).data.length = 3 ∧
      decStrVal (mdSerial (md5hex title)) = hexToNat (lastFour (md5hex title)) % 1000 ∧
      ∀ c ∈ (mdSerial (md5hex title)).data, isDig c = true) := by
  refine ⟨?_, ?_, ?_⟩
  · intro h
    constructor
    · simp [build_pid, h]
    · simp [build_pid, h]
  · intro hpid hart hdate
    constructor
    · exact ensurePid_md5_path md5hex ty1 tm1 td1 data ys ms ds hpid hart hdate
    · rw [ensurePid_md5_path md5hex ty1 tm1 td1 data ys ms ds hpid hart hdate,
        ensurePid_md5_path md5hex ty2 tm2 td2 data ys ms ds hpid hart hdate]
  · have h := mdSerial_render (hexToNat (lastFour (md5hex title)) % 1000)
      (Nat.mod_lt _ (by omega))
    exact ⟨h.1, h.2.1, h.2.2⟩

/-- Witness for C4: the stable-token path and the md5 fallback path at a
concrete record (md5 hex digest of an arbitrary title stubbed by its
value). -/
theorem identifier_determinism_witness :
    build_pid 301 "2024-3-5" "12345" = "202435" ++ "12345" ∧
    ensurePid (fun _ => "0123456789abcdef0123456789abcdef") 2025 10 12
        [("title", JVal.str "T"), ("date", JVal.str "2024-3-5")] =
      setKey [("title", JVal.str "T"), ("date", JVal.str "2024-3-5")] "pid"
        (.str ("2024" ++ zfillStr 2 "3" ++ zfillStr 2 "5" ++
          mdSerial ((fun _ : String => "0123456789abcdef0123456789abcdef") "T"))) ∧
    decStrVal (mdSerial ((fun _ : String => "0123456789abcdef0123456789abcdef") "T")) =
      hexToNat (lastFour "0123456789abcdef0123456789abcdef") % 1000 := by
  refine ⟨?_, ?_, ?_⟩
  · exact ((identifier_determinism 301 302 "2024-3-5" "12345"
      (fun _ => "0123456789abcdef0123456789abcdef") "T" [] 2025 10 12 2025 10 12
      "2024" "3" "5").1 (by decide)).1
  · exact (((identifier_determinism 301 302 "2024-3-5" "12345"
      (fun _ => "0123456789abcdef0123456789abcdef") "T"
      [("title", JVal.str "T"), ("date", JVal.str "2024-3-5")]
      2025 10 12 2025 10 12 "2024" "3" "5").2.1 (by rfl) (by rfl) (by rfl)).1)
  · exact ((identifier_determinism 301 302 "2024-3-5" "12345"
      (fun _ => "0123456789abcdef0123456789abcdef") "T" [] 2025 10 12 2025 10 12
      "2024" "3" "5").2.2).2.1

/-! ## C7: date normalization -/

/-- The canonical `YYYY-MM-DDTHH:MM:SS` ISO-8601 shape. -/
def isIsoShape (s : String) : Bool :=
  match s.data with
  | [y1, y2, y3, y4, d1, m1, m2, d2, a1, a2, t, h1, h2, c1, n1, n2, c2, e1, e2] =>
    isDig y1 && isDig y2 && isDig y3 && isDig y4 && d1 == '-' && isDig m1 && isDig m2 &&
    d2 == '-' && isDig a1 && isDig a2 && t == 'T' && isDig h1 && isDig h2 && c1 == ':' &&
    isDig n1 && isDig n2 && c2 == ':' && isDig e1 && isDig e2
  | _ => false

theorem isDig_decChar_mod (n : Nat) : isDig (decChar (n % 10)) = true :=
  isDig_decChar (n % 10) (Nat.mod_lt n (by omega))

theorem natDigits_four (n : Nat) (h1 : 1000 ≤ n) (h2 : n < 10000) :
    natDigits n =
      [decChar (n / 1000), decChar (n / 100 % 10), decChar (n / 10 % 10), decChar (n % 10)] := by
  rw [natDigits_eq_of_ge10 n (by omega), natDigits_three (n / 10) (by omega) (by omega)]
  have e1 : n / 10 / 100 = n / 1000 := by omega
  have e2 : n / 10 / 10 % 10 = n / 100 % 10 := by omega
  rw [e1, e2]
  rfl

/-- Whenever the parsed year has four digits, the re-rendering has the
canonical 19-character shape. -/
theorem isIsoShape_isoRender (dt : DT) (h1 : 1000 ≤ dt.year) (h2 : dt.year < 10000) :
    isIsoShape (isoRender dt) = true := by
  unfold isoRender
  rw [natDigits_four dt.year h1 h2]
  simp [isIsoShape, pad2, isDig_decChar_mod, isDig_decChar (dt.year / 1000) (by omega)]

theorem digVal_le_of_isDig (c : Char) (h : isDig c = true) : digVal c ≤ 9 := by
  unfold isDig at h
  unfold digVal
  simp only [Bool.and_eq_true, decide_eq_true_eq] at h
  omega

theorem alt4dig_lt (cs : List Char) (v : Nat) (rest : List Char)
    (h : alt4dig cs = some (v, rest)) : v < 10000 := by
  unfold alt4dig at h
  split at h
  · next a b c d rest' =>
    split at h
    · next hd =>
      simp only [Bool.and_eq_true] at hd
      have ha := digVal_le_of_isDig a hd.1.1.1
      have hb := digVal_le_of_isDig b hd.1.1.2
      have hc := digVal_le_of_isDig c hd.1.2
      have hd4 := digVal_le_of_isDig d hd.2
      simp only [Option.some.injEq, Prod.mk.injEq] at h
      omega
    · cases h
  · cases h

theorem firstAlt_year (cs : List Char) (v : Nat) (rest : List Char)
    (h : firstAlt (tokAlts Tok.year) cs = some (v, rest)) : v < 10000 := by
  simp only [tokAlts, firstAlt] at h
  cases halt : alt4dig cs with
  | none => rw [halt] at h; cases h
  | some r =>
    rw [halt] at h
    injection h with h'
    subst h'
    exact alt4dig_lt cs v rest halt

theorem setTok_year_lt (dt : DT) (tok : Tok) (v : Nat) (h0 : dt.year < 10000)
    (hv : tok = Tok.year → v < 10000) : (setTok dt tok v).year < 10000 := by
  cases tok <;> simp only [setTok] <;> first | exact h0 | exact hv rfl

/-- A successful format match never produces a year of five or more digits
(`%Y` is exactly `\d{4}` and the default year is 1900). -/
theorem matchToks_year_lt (fmt : List Tok) : ∀ (cs : List Char) (dt0 dt : DT),
    dt0.year < 10000 → matchToks fmt cs dt0 = some dt → dt.year < 10000 := by
  induction fmt with
  | nil =>
    intro cs dt0 dt h0 h
    cases cs with
    | nil =>
      rw [matchToks] at h
      cases h
      exact h0
    | cons c cs' =>
      rw [matchToks] at h
      cases h
  | cons tok toks ih =>
    intro cs dt0 dt h0 h
    rw [matchToks] at h
    cases hfa : firstAlt (tokAlts tok) cs with
    | none =>
      rw [hfa] at h
      cases h
    | some pr =>
      obtain ⟨v, rest⟩ := pr
      rw [hfa] at h
      refine ih rest (setTok dt0 tok v) dt ?_ h
      refine setTok_year_lt dt0 tok v h0 ?_
      intro htok
      subst htok
      exact firstAlt_year cs v rest hfa

theorem strptime_year_lt (fmt : List Tok) (s : String) (dt : DT)
    (h : strptime fmt s = some dt) : dt.year < 10000 := by
  unfold strptime at h
  cases hm : matchToks fmt s.data strptimeDefault with
  | none =>
    rw [hm] at h
    cases h
  | some dt' =>
    rw [hm] at h
    have h2 : (if 1 ≤ dt'.year ∧ 1 ≤ dt'.day ∧ dt'.day ≤ daysInMonth dt'.year dt'.month ∧
        dt'.second ≤ 59 then some dt' else none) = some dt := h
    by_cases hc : 1 ≤ dt'.year ∧ 1 ≤ dt'.day ∧ dt'.day ≤ daysInMonth dt'.year dt'.month ∧
      dt'.second ≤ 59
    · rw [if_pos hc] at h2
      injection h2 with h'
      subst h'
      exact matchToks_year_lt fmt s.data strptimeDefault dt' (by decide) hm
    · rw [if_neg hc] at h2
      cases h2

theorem tryFormats_year_lt (fmts : List (List Tok)) (s : String) (dt : DT)
    (h : tryFormats fmts s = some dt) : dt.year < 10000 := by
  induction fmts with
  | nil =>
    rw [tryFormats] at h
    cases h
  | cons f rest ih =>
    rw [tryFormats] at h
    cases hs : strptime f s with
    | some dt' =>
      rw [hs] at h
      injection h with h'
      subst h'
      exact strptime_year_lt f s dt' hs
    | none =>
      rw [hs] at h
      exact ih h

theorem tryFormats_empty : tryFormats dateFormats "" = none := rfl

theorem format_date_of_parse (s : String) (dt : DT)
    (h : tryFormats dateFormats s = some dt) :
    format_date s = some (isoRender dt) := by
  have hs : s ≠ "" := by
    intro he
    rw [he, tryFormats_empty] at h
    cases h
  unfold format_date
  rw [if_neg hs, h]

theorem format_date_of_noparse (s : String) (h : tryFormats dateFormats s = none) :
    format_date s = none := by
  by_cases hs : s = ""
  · unfold format_date
    rw [if_pos hs]
  · unfold format_date
    rw [if_neg hs, h]

theorem cleanField_date_of_format (k s fd : String) (hk : k = "dt" ∨ k = "date_created")
    (h : format_date s = some fd) :
    cleanField k (.str s) = .str fd := by
  unfold cleanField
  rw [show (JVal.str s).isNull = false from rfl]
  simp only [Bool.false_eq_true, if_false]
  rw [if_pos hk, h]

theorem cleanField_date_of_noformat (k s : String) (hk : k = "dt" ∨ k = "date_created")
    (h : format_date s = none) :
    cleanField k (.str s) = .str s := by
  unfold cleanField
  rw [show (JVal.str s).isNull = false from rfl]
  simp only [Bool.false_eq_true, if_false]
  rw [if_pos hk, h]

/-- C7: for every date string one of the five supported formats parses
(including the whitespace-run and space-padded-day laxity of `strptime`'s
compiled regexes and the validity checks the `datetime` constructor
performs), `_format_date` — applied by the sanitizer to the two designated
date fields — emits the one canonical ISO-8601 rendering of the parsed
instant; the parsed year is below 10000, and whenever it has four digits
(as every pipeline date does) the rendering has the canonical zero-padded
`YYYY-MM-DDTHH:MM:SS` shape; a string no supported format parses is passed
through to the cleaned document unchanged, neither dropped nor raising. -/
theorem date_normalization_round_trip (s k : String)
    (hk : k = "dt" ∨ k = "date_created") :
    (∀ dt, tryFormats dateFormats s = some dt →
      format_date s = some (isoRender dt) ∧
      dt.year < 10000 ∧
      (1000 ≤ dt.year → isIsoShape (isoRender dt) = true) ∧
      cleanField k (.str s) = .str (isoRender dt)) ∧
    (tryFormats dateFormats s = none →
      format_date s = none ∧
      cleanField k (.str s) = .str s) := by
  constructor
  · intro dt h
    have hy := tryFormats_year_lt dateFormats s dt h
    exact ⟨format_date_of_parse s dt h, hy,
      fun h1 => isIsoShape_isoRender dt h1 hy,
      cleanField_date_of_format k s (isoRender dt) hk (format_date_of_parse s dt h)⟩
  · intro h
    exact ⟨format_date_of_noparse s h,
      cleanField_date_of_noformat k s hk (format_date_of_noparse s h)⟩

/-- Witness for C7: a slash-format date is canonicalized, so are a
space-padded day and a tab-separated time, and a non-date string passes
through unchanged. -/
theorem date_normalization_round_trip_witness :
    cleanField "dt" (.str "2024/3/5 9:07") = .str (isoRender ⟨2024, 3, 5, 9, 7, 0⟩) ∧
    cleanField "dt" (.str "2024/3/ 5") = .str (isoRender ⟨2024, 3, 5, 0, 0, 0⟩) ∧
    cleanField "dt" (.str "2024-01-01\t00:00") = .str (isoRender ⟨2024, 1, 1, 0, 0, 0⟩) ∧
    cleanField "dt" (.str "March 5, 2024") = .str "March 5, 2024" := by
  refine ⟨?_, ?_, ?_, ?_⟩
  · exact ((date_normalization_round_trip "2024/3/5 9:07" "dt" (Or.inl rfl)).1
      ⟨2024, 3, 5, 9, 7, 0⟩ rfl).2.2.2
  · exact ((date_normalization_round_trip "2024/3/ 5" "dt" (Or.inl rfl)).1
      ⟨2024, 3, 5, 0, 0, 0⟩ rfl).2.2.2
  · exact ((date_normalization_round_trip "2024-01-01\t00:00" "dt" (Or.inl rfl)).1
      ⟨2024, 1, 1, 0, 0, 0⟩ rfl).2.2.2
  · exact ((date_normalization_round_trip "March 5, 2024" "dt" (Or.inl rfl)).2 rfl).2

theorem effFields_ensureIndex (store : Store) :
    (ensureIndex store).fields = effectiveFields store := by
  unfold ensureIndex effectiveFields
  split <;> rfl

theorem upload_strict_filtering (document : Document) (store : Store)
    (hne : document ≠ []) (hpid : hasKey document "pid" = true)
    (hpf : (effectiveFields store).contains "pid" = true) :
    (upload_single_document document true store).1.result = "Y" ∧
    (upload_single_document document true store).1.ignoredFields =
      ((cleanDocument document).map Prod.fst).filter
        (fun k => !(effectiveFields store).contains k) ∧
    ∃ wid, (upload_single_document document true store).1.documentId = some wid ∧
      (wid, (cleanDocument document).filter
        (fun kv => (effectiveFields store).contains kv.1)) ∈
        (upload_single_document document true store).2.docs := by
  obtain ⟨v, hv⟩ : ∃ v, lookupKey document "pid" = some v := by
    unfold hasKey at hpid
    cases h : lookupKey document "pid" with
    | none => rw [h] at hpid; cases hpid
    | some v => exact ⟨v, rfl⟩
  have hclean : lookupKey (cleanDocument document) "pid" = some (cleanField "pid" v) := by
    rw [lookupKey_cleanDocument document "pid" rfl, hv]
    rfl
  have hfilt : lookupKey ((cleanDocument document).filter
      (fun kv => (ensureIndex store).fields.contains kv.1)) "pid" =
      some (cleanField "pid" v) := by
    rw [lookupKey_filterKeys _ (fun k => (ensureIndex store).fields.contains k) "pid"
      (by rw [effFields_ensureIndex]; exact hpf)]
    exact hclean
  unfold upload_single_document
  rw [if_neg (by simp [hne]), if_neg (by simp [hpid])]
  simp only [if_true]
  split
  · next heq =>
    rw [hfilt] at heq
    cases heq
  · next pidv heq =>
    split
    · next hit hfind =>
      refine ⟨rfl, by rw [effFields_ensureIndex], hit.1, rfl, ?_⟩
      rw [effFields_ensureIndex]
      have hmem : hit ∈ (ensureIndex store).docs := List.mem_of_find?_eq_some hfind
      have hm2 := List.mem_map_of_mem
        (fun dc => if dc.1 = hit.1 then
          (hit.1, (cleanDocument document).filter
            (fun kv => (effectiveFields store).contains kv.1)) else dc) hmem
      simpa using hm2
    · next hfind =>
      refine ⟨rfl, by rw [effFields_ensureIndex], (ensureIndex store).nextId, rfl, ?_⟩
      rw [effFields_ensureIndex]
      simp

theorem upload_nonstrict_keeps_cleaned (document : Document) (store : Store)
    (hne : document ≠ []) (hpid : hasKey document "pid" = true) :
    (upload_single_document document false store).1.result = "Y" ∧
    (upload_single_document document false store).1.ignoredFields = [] ∧
    ∃ wid, (upload_single_document document false store).1.documentId = some wid ∧
      (wid, cleanDocument document) ∈ (upload_single_document document false store).2.docs := by
  obtain ⟨v, hv⟩ : ∃ v, lookupKey document "pid" = some v := by
    unfold hasKey at hpid
    cases h : lookupKey document "pid" with
    | none => rw [h] at hpid; cases hpid
    | some v => exact ⟨v, rfl⟩
  have hclean : lookupKey (cleanDocument document) "pid" = some (cleanField "pid" v) := by
    rw [lookupKey_cleanDocument document "pid" rfl, hv]
    rfl
  unfold upload_single_document
  rw [if_neg (by simp [hne]), if_neg (by simp [hpid])]
  simp only [Bool.false_eq_true, if_false]
  split
  · next heq =>
    rw [hclean] at heq
    cases heq
  · next pidv heq =>
    split
    · next hit hfind =>
      refine ⟨rfl, rfl, hit.1, rfl, ?_⟩
      have hmem : hit ∈ (ensureIndex store).docs := List.mem_of_find?_eq_some hfind
      have hm2 := List.mem_map_of_mem
        (fun dc => if dc.1 = hit.1 then (hit.1, cleanDocument document) else dc) hmem
      simpa using hm2
    · next hfind =>
      exact ⟨rfl, rfl, (ensureIndex store).nextId, rfl, by simp⟩

theorem cleanDocument_keys (d : Document) :
    (cleanDocument d).map Prod.fst =
      (d.map Prod.fst).filter fun k => !timeFieldsToExclude.contains k := by
  induction d with
  | nil => rfl
  | cons kv rest ih =>
    by_cases h : kv.1 ∈ timeFieldsToExclude
    · simpa [cleanDocument, List.filter_cons, h] using ih
    · simpa [cleanDocument, List.filter_cons, h] using ih

/-- C5 (amended): the five time-related fields are always removed during
cleaning, regardless of `strict_fields`, and are never reported.  Beyond
that: with `strict_fields` true (and the pid field known to the index, as
required for the pid lookup that follows), every cleaned record field absent
from the index's known field set is dropped from the written document and
reported in the ignored-field list while the upload still returns
`Result = Y`; with `strict_fields` false no further field is dropped — the
written document is exactly the cleaned record. -/
theorem strict_field_filtering_policy (document : Document) (store : Store) :
    ((cleanDocument document).map Prod.fst =
      (document.map Prod.fst).filter fun k => !timeFieldsToExclude.contains k) ∧
    (document ≠ [] → hasKey document "pid" = true →
      (effectiveFields store).contains "pid" = true →
      (upload_single_document document true store).1.result = "Y" ∧
      (upload_single_document document true store).1.ignoredFields =
        ((cleanDocument document).map Prod.fst).filter
          (fun k => !(effectiveFields store).contains k) ∧
      ∃ wid, (upload_single_document document true store).1.documentId = some wid ∧
        (wid, (cleanDocument document).filter
          (fun kv => (effectiveFields store).contains kv.1)) ∈
          (upload_single_document document true store).2.docs) ∧
    (document ≠ [] → hasKey document "pid" = true →
      (upload_single_document document false store).1.result = "Y" ∧
      (upload_single_document document false store).1.ignoredFields = [] ∧
      ∃ wid, (upload_single_document document false store).1.documentId = some wid ∧
        (wid, cleanDocument document) ∈ (upload_single_document document false store).2.docs) :=
  ⟨cleanDocument_keys document,
   fun hne hpid hpf => upload_strict_filtering document store hne hpid hpf,
   fun hne hpid => upload_nonstrict_keeps_cleaned document store hne hpid⟩

/-- Witness for the amended C5 theorem: the spec's strict-field scenario
(record `{pid, title, extra_field}`, schema `{pid, title}`). -/
theorem strict_field_filtering_policy_witness :
    (upload_single_document
      [("pid", JVal.str "p"), ("title", JVal.str "t"), ("extra_field", JVal.str "e")]
      true ⟨true, ["pid", "title"], [], 0⟩).1.result = "Y" ∧
    (upload_single_document
      [("pid", JVal.str "p"), ("title", JVal.str "t"), ("extra_field", JVal.str "e")]
      true ⟨true, ["pid", "title"], [], 0⟩).1.ignoredFields = ["extra_field"] := by
  have h := (strict_field_filtering_policy
    [("pid", JVal.str "p"), ("title", JVal.str "t"), ("extra_field", JVal.str "e")]
    ⟨true, ["pid", "title"], [], 0⟩).2.1 (by simp) rfl rfl
  exact ⟨h.1, by rw [h.2.1]; rfl⟩

/-- C5 counterexample: with `strict_fields = false` the record field
`time_articut_tagger` is still dropped — the upload succeeds, nothing is
reported ignored, and the document written to the store does not contain the
field, contradicting the claim that with `strict_fields` false no field of
the input record is dropped. -/
theorem nonstrict_still_drops_time_fields :
    hasKey [("pid", JVal.str "p1"), ("title", JVal.str "t"),
      ("time_articut_tagger", JVal.num 5)] "time_articut_tagger" = true ∧
    (upload_single_document
      [("pid", JVal.str "p1"), ("title", JVal.str "t"), ("time_articut_tagger", JVal.num 5)]
      false ⟨true, ["pid", "title", "time_articut_tagger"], [], 0⟩).1.result = "Y" ∧
    (upload_single_document
      [("pid", JVal.str "p1"), ("title", JVal.str "t"), ("time_articut_tagger", JVal.num 5)]
      false ⟨true, ["pid", "title", "time_articut_tagger"], [], 0⟩).1.ignoredFields = [] ∧
    (upload_single_document
      [("pid", JVal.str "p1"), ("title", JVal.str "t"), ("time_articut_tagger", JVal.num 5)]
      false ⟨true, ["pid", "title", "time_articut_tagger"], [], 0⟩).2.docs =
      [(0, [("pid", JVal.str "p1"), ("title", JVal.str "t")])] :=
  ⟨rfl, rfl, rfl, rfl⟩

/-! ## Lemmas about the `save_to_es` data mutations -/

theorem string_data_append (a b : String) : (a ++ b).data = a.data ++ b.data := rfl

theorem mk_ne_empty (c : Char) (l : List Char) : String.mk (c :: l) ≠ "" := by
  intro h
  have h2 := congrArg String.data h
  cases h2

theorem ensureIndex_docs (store : Store) : (ensureIndex store).docs = store.docs := by
  unfold ensureIndex
  split <;> rfl

theorem lookupKey_ensurePid_ne (md5hex : String → String) (ty tm td : Nat)
    (d : Document) (k : String) (hk : k ≠ "pid") :
    lookupKey (ensurePid md5hex ty tm td d) k = lookupKey d k := by
  simp only [ensurePid]
  by_cases hp : (match lookupKey d "pid" with
    | none => true
    | some v => v.falsy) = true
  · rw [if_pos hp]
    by_cases ha : getStr d "article_id" ≠ ""
    · rw [if_pos ha]
      exact lookupKey_setKey_ne d "pid" k _ hk
    · rw [if_neg ha]
      exact lookupKey_setKey_ne d "pid" k _ hk
  · rw [if_neg hp]

theorem getStr_ensurePid_ne (md5hex : String → String) (ty tm td : Nat)
    (d : Document) (k : String) (hk : k ≠ "pid") :
    getStr (ensurePid md5hex ty tm td d) k = getStr d k := by
  simp [getStr, lookupKey_ensurePid_ne md5hex ty tm td d k hk]

theorem getStr_dataStep_title (md5hex : String → String) (ty tm td : Nat) (data : Document) :
    getStr (dataStep md5hex ty tm td data) "title" = getStr data "title" := by
  unfold dataStep
  rw [getStr_ensurePid_ne md5hex ty tm td _ "title" (by decide)]
  split
  · exact getStr_setKey_ne data "date" "title" _ (by decide)
  · rfl

theorem getStr_ne_empty_lookup (d : Document) (k : String) (h : getStr d k ≠ "") :
    lookupKey d k = some (.str (getStr d k)) := by
  cases hv : lookupKey d k with
  | none => exact absurd (getStr_of_none d k hv) h
  | some v =>
    cases v with
    | str s => rw [getStr_of_str d k s hv]
    | null => exact absurd (by simp [getStr, hv]) h
    | num n => exact absurd (by simp [getStr, hv]) h
    | bool b => exact absurd (by simp [getStr, hv]) h
    | arr xs => exact absurd (by simp [getStr, hv]) h
    | obj fs => exact absurd (by simp [getStr, hv]) h

theorem pyStrip_empty : pyStrip "" = "" := rfl

theorem mem_dropWhile_of_neg {α : Type} (p : α → Bool) (l : List α) (c : α)
    (hc : c ∈ l) (h : p c = false) : c ∈ l.dropWhile p := by
  induction l with
  | nil => cases hc
  | cons a rest ih =>
    by_cases hpa : p a = true
    · rw [List.dropWhile_cons_of_pos hpa]
      rcases List.mem_cons.mp hc with rfl | hmem
      · rw [hpa] at h; cases h
      · exact ih hmem
    · rw [List.dropWhile_cons_of_neg (by simpa using hpa)]
      exact hc

theorem pyStrip_ne_empty_of_nonspace (s : String) (c : Char)
    (hc : c ∈ s.data) (hns : isSpaceChar c = false) : pyStrip s ≠ "" := by
  unfold pyStrip
  intro h
  have hdata := congrArg String.data h
  simp only [List.reverse_eq_nil_iff] at hdata
  rw [List.dropWhile_eq_nil_iff] at hdata
  have hc2 : c ∈ (s.data.dropWhile isSpaceChar).reverse := by
    rw [List.mem_reverse]
    exact mem_dropWhile_of_neg isSpaceChar s.data c hc hns
  have := hdata c hc2
  rw [hns] at this
  cases this

theorem isSpaceChar_decChar : ∀ d, d < 10 → isSpaceChar (decChar d) = false := by decide

theorem pyStrip_todayDashed (y m d : Nat) : pyStrip (todayDashed y m d) ≠ "" := by
  apply pyStrip_ne_empty_of_nonspace _ (decChar (y / 1000 % 10))
  · simp [todayDashed, pad4]
  · exact isSpaceChar_decChar _ (Nat.mod_lt _ (by omega))

theorem setKey_eq_self (d : Document) (k : String) (v : JVal)
    (h : lookupKey d k = some v) : setKey d k v = d := by
  induction d with
  | nil => cases h
  | cons kv rest ih =>
    obtain ⟨a, b⟩ := kv
    by_cases ha : a = k
    · subst ha
      simp only [lookupKey] at h
      simp at h
      simp [setKey, h]
    · simp only [lookupKey, if_neg ha] at h
      simp [setKey, ha, ih h]

/-- After `dataStep`, the date field is a non-empty string. -/
theorem dataStep_date (md5hex : String → String) (ty tm td : Nat) (data : Document) :
    ∃ s, lookupKey (dataStep md5hex ty tm td data) "date" = some (.str s) ∧ s ≠ "" := by
  unfold dataStep
  rw [lookupKey_ensurePid_ne md5hex ty tm td _ "date" (by decide)]
  by_cases hd : pyStrip (getStr data "date") = ""
  · rw [if_pos hd, lookupKey_setKey_self]
    refine ⟨todayDashed ty tm td, rfl, ?_⟩
    exact mk_ne_empty _ _
  · rw [if_neg hd]
    have hne : getStr data "date" ≠ "" := by
      intro h0
      rw [h0, pyStrip_empty] at hd
      exact hd rfl
    exact ⟨getStr data "date", getStr_ne_empty_lookup data "date" hne, hne⟩

theorem mdSerial_ne_empty (h : String) : mdSerial h ≠ "" := by
  intro he
  have hlen := (mdSerial_render (hexToNat (lastFour h) % 1000) (Nat.mod_lt _ (by omega))).1
  rw [show zfillStr 3 (pyStr (hexToNat (lastFour h) % 1000)) = mdSerial h from rfl, he] at hlen
  simp at hlen

theorem append_ne_empty_right (a b : String) (hb : b ≠ "") : a ++ b ≠ "" := by
  intro h
  have hd := congrArg String.data h
  rw [string_data_append] at hd
  have hb2 : b.data = [] := (List.append_eq_nil.mp hd).2
  apply hb
  cases b with
  | mk l =>
    cases hb2
    rfl

theorem ensurePid_pid (md5hex : String → String) (ty tm td : Nat) (d : Document) :
    ∃ v, lookupKey (ensurePid md5hex ty tm td d) "pid" = some v ∧ v.falsy = false := by
  simp only [ensurePid]
  by_cases hp : (match lookupKey d "pid" with
    | none => true
    | some v => v.falsy) = true
  · rw [if_pos hp]
    by_cases ha : getStr d "article_id" ≠ ""
    · rw [if_pos ha]
      refine ⟨_, lookupKey_setKey_self _ _ _, ?_⟩
      show (JVal.str _).falsy = false
      simp only [JVal.falsy]
      rw [if_neg (append_ne_empty_right _ _ ha)]
    · rw [if_neg ha]
      refine ⟨_, lookupKey_setKey_self _ _ _, ?_⟩
      show (JVal.str _).falsy = false
      simp only [JVal.falsy]
      rw [if_neg (append_ne_empty_right _ _ (mdSerial_ne_empty _))]
  · rw [if_neg hp]
    cases hv : lookupKey d "pid" with
    | none =>
      rw [hv] at hp
      exact absurd rfl hp
    | some v =>
      rw [hv] at hp
      refine ⟨v, rfl, ?_⟩
      simpa using hp

/-- After `dataStep`, the date is a string that is non-empty even after
stripping. -/
theorem dataStep_date_strong (md5hex : String → String) (ty tm td : Nat) (data : Document) :
    ∃ s, lookupKey (dataStep md5hex ty tm td data) "date" = some (.str s) ∧
      pyStrip s ≠ "" ∧ s ≠ "" := by
  unfold dataStep
  rw [lookupKey_ensurePid_ne md5hex ty tm td _ "date" (by decide)]
  by_cases hd : pyStrip (getStr data "date") = ""
  · rw [if_pos hd, lookupKey_setKey_self]
    exact ⟨todayDashed ty tm td, rfl, pyStrip_todayDashed ty tm td, mk_ne_empty _ _⟩
  · rw [if_neg hd]
    have hne : getStr data "date" ≠ "" := by
      intro h0
      rw [h0, pyStrip_empty] at hd
      exact hd rfl
    exact ⟨getStr data "date", getStr_ne_empty_lookup data "date" hne, hd, hne⟩

theorem dataStep_idem (md5hex : String → String) (ty tm td : Nat) (data : Document) :
    dataStep md5hex ty tm td (dataStep md5hex ty tm td data) =
      dataStep md5hex ty tm td data := by
  obtain ⟨s, hs, hstrip, _⟩ := dataStep_date_strong md5hex ty tm td data
  obtain ⟨v, hv, hvf⟩ : ∃ v,
      lookupKey (dataStep md5hex ty tm td data) "pid" = some v ∧ v.falsy = false := by
    unfold dataStep
    exact ensurePid_pid md5hex ty tm td _
  conv_lhs => rw [dataStep]
  rw [getStr_of_str _ _ _ hs, if_neg hstrip]
  simp only [ensurePid, hv]
  rw [if_neg (by rw [hvf]; simp)]

/-- C6: a record whose title already matches a stored document is skipped
without any write. -/
theorem duplicate_title_skip (md5hex : String → String) (ty tm td : Nat)
    (data : Document) (store : Store) (hit : Nat × Document)
    (ht : pyStrip (getStr data "title") ≠ "")
    (hfind : store.docs.find? (fun dc => getStr dc.2 "title" == getStr data "title") = some hit) :
    save_to_es md5hex ty tm td (fun _ => false) data store =
      (⟨"SKIP", "Document with same title already exists", some hit.1, none⟩, store, []) := by
  have htne : getStr data "title" ≠ "" := fun h0 => ht (by rw [h0, pyStrip_empty])
  unfold save_to_es
  rw [saveLoop]
  rw [if_neg ht]
  simp only [getStr_dataStep_title]
  rw [if_pos htne]
  simp only [Bool.false_eq_true, if_false]
  rw [hfind]

/-- Witness for C6: one stored document titled `X`, an incoming record with
the same title: SKIP with the existing id, store untouched, nothing
uploaded. -/
theorem duplicate_title_skip_witness :
    save_to_es (fun _ => "d41d8cd98f00b204e9800998ecf8427e") 2025 10 12 (fun _ => false)
      [("title", JVal.str "X"), ("pid", JVal.str "p2")]
      ⟨true, [], [(7, [("title", JVal.str "X"), ("pid", JVal.str "p1")])], 8⟩ =
      (⟨"SKIP", "Document with same title already exists", some 7, none⟩,
        ⟨true, [], [(7, [("title", JVal.str "X"), ("pid", JVal.str "p1")])], 8⟩, []) :=
  duplicate_title_skip (fun _ => "d41d8cd98f00b204e9800998ecf8427e") 2025 10 12
    [("title", JVal.str "X"), ("pid", JVal.str "p2")]
    ⟨true, [], [(7, [("title", JVal.str "X"), ("pid", JVal.str "p1")])], 8⟩
    (7, [("title", JVal.str "X"), ("pid", JVal.str "p1")])
    (by decide) rfl

theorem upload_into_empty (document : Document) (store : Store)
    (hne : document ≠ []) (hpid : hasKey document "pid" = true) (hdocs : store.docs = []) :
    (upload_single_document document false store).1.result = "Y" ∧
    (upload_single_document document false store).2.docs =
      [((ensureIndex store).nextId, cleanDocument document)] := by
  obtain ⟨v, hv⟩ : ∃ v, lookupKey document "pid" = some v := by
    unfold hasKey at hpid
    cases h : lookupKey document "pid" with
    | none => rw [h] at hpid; cases hpid
    | some v => exact ⟨v, rfl⟩
  have hclean : lookupKey (cleanDocument document) "pid" = some (cleanField "pid" v) := by
    rw [lookupKey_cleanDocument document "pid" rfl, hv]
    rfl
  have hdocs2 : (ensureIndex store).docs = [] := by rw [ensureIndex_docs, hdocs]
  unfold upload_single_document
  rw [if_neg (by simp [hne]), if_neg (by simp [hpid])]
  simp only [Bool.false_eq_true, if_false]
  split
  · next heq =>
    rw [hclean] at heq
    cases heq
  · next pidv heq =>
    rw [hdocs2]
    exact ⟨rfl, rfl⟩

/-- The document `save_to_es` ends up handing to the uploader. -/
theorem dataStep_nonempty (md5hex : String → String) (ty tm td : Nat) (data : Document) :
    saveClean (dataStep md5hex ty tm td data) ≠ [] ∧
    hasKey (saveClean (dataStep md5hex ty tm td data)) "pid" = true := by
  obtain ⟨v, hv, _⟩ : ∃ v,
      lookupKey (dataStep md5hex ty tm td data) "pid" = some v ∧ v.falsy = false := by
    unfold dataStep
    exact ensurePid_pid md5hex ty tm td _
  constructor
  · intro h0
    rw [show ([] : Document) = saveClean [] from rfl] at h0
    have : lookupKey (saveClean (dataStep md5hex ty tm td data)) "pid" =
        (lookupKey (dataStep md5hex ty tm td data) "pid").map
          (fun w => if !w.isNull && !w.isEmptyStr then w else .str "") :=
      lookupKey_saveClean _ _
    rw [h0] at this
    rw [hv] at this
    cases this
  · unfold hasKey
    rw [lookupKey_saveClean, hv]
    rfl

/-- C9: when the title-duplicate search raises on every one of the three
attempts, `save_to_es` does not return an error: on the last attempt it
falls through to the upload, and (into a store with no documents) the record
is written — one document is handed to the uploader and one document ends up
in the store, with `Result = Y`. -/
theorem search_failure_does_not_block_write (md5hex : String → String) (ty tm td : Nat)
    (data : Document) (store : Store)
    (ht : pyStrip (getStr data "title") ≠ "")
    (hdocs : store.docs = []) :
    (save_to_es md5hex ty tm td (fun _ => true) data store).1.result = "Y" ∧
    (save_to_es md5hex ty tm td (fun _ => true) data store).2.1.docs =
      [((ensureIndex store).nextId, cleanDocument (saveClean (dataStep md5hex ty tm td data)))] ∧
    (save_to_es md5hex ty tm td (fun _ => true) data store).2.2 =
      [saveClean (dataStep md5hex ty tm td data)] := by
  have ht2 : pyStrip (getStr (dataStep md5hex ty tm td data) "title") ≠ "" := by
    rw [getStr_dataStep_title]
    exact ht
  have htne2 : getStr (dataStep md5hex ty tm td data) "title" ≠ "" := by
    intro h0
    rw [h0, pyStrip_empty] at ht2
    exact ht2 rfl
  obtain ⟨hne, hpid⟩ := dataStep_nonempty md5hex ty tm td data
  have hup := upload_into_empty (saveClean (dataStep md5hex ty tm td data)) store hne hpid hdocs
  have htne : getStr data "title" ≠ "" := by
    intro h0
    rw [h0, pyStrip_empty] at ht
    exact ht rfl
  unfold save_to_es
  rw [saveLoop]
  rw [if_neg ht]
  simp only [getStr_dataStep_title]
  rw [if_pos htne]
  rw [if_pos trivial]
  rw [if_pos (by norm_num : (0 : Nat) < 2)]
  rw [saveLoop]
  rw [if_neg ht2]
  simp only [dataStep_idem]
  rw [if_pos htne2]
  rw [if_pos trivial]
  rw [if_pos (by norm_num : (0 : Nat) + 1 < 2)]
  rw [saveLoop]
  rw [if_neg ht2]
  simp only [dataStep_idem]
  rw [if_pos htne2]
  rw [if_pos trivial]
  rw [if_neg (by norm_num : ¬ ((0 : Nat) + 1 + 1 < 2))]
  rw [if_pos hup.1]
  exact ⟨rfl, by rw [hup.2], rfl⟩

/-- Witness for C9: with every search attempt failing, a record is still
uploaded into an empty store and the call reports success. -/
theorem search_failure_does_not_block_write_witness :
    (save_to_es (fun _ => "0123456789abcdef0123456789abcdef") 2025 10 12 (fun _ => true)
      [("title", JVal.str "T")] ⟨true, ["pid"], [], 0⟩).1.result = "Y" ∧
    (save_to_es (fun _ => "0123456789abcdef0123456789abcdef") 2025 10 12 (fun _ => true)
      [("title", JVal.str "T")] ⟨true, ["pid"], [], 0⟩).2.2.length = 1 := by
  have h := search_failure_does_not_block_write (fun _ => "0123456789abcdef0123456789abcdef")
    2025 10 12 [("title", JVal.str "T")] ⟨true, ["pid"], [], 0⟩ (by decide) rfl
  exact ⟨h.1, by rw [h.2.2]; rfl⟩

/-! ## C10: empty dates and the run-day dependence of the fallback pid -/

theorem searchDate_todayDashed (y m d : Nat) :
    searchDate (todayDashed y m d).data =
      some (String.mk (pad4 y), String.mk (pad2 m), String.mk (pad2 d)) := by
  show searchDate (pad4 y ++ '-' :: pad2 m ++ '-' :: pad2 d) = _
  simp [searchDate, matchDateAt, matchMonthDash, matchDayDigits, pad4, pad2, isDig_decChar_mod]

theorem zfillStr_two (a b : Char) : zfillStr 2 (String.mk [a, b]) = String.mk [a, b] := by
  simp [zfillStr]

theorem todayPrefix_assemble (y m d : Nat) :
    String.mk (pad4 y) ++ zfillStr 2 (String.mk (pad2 m)) ++ zfillStr 2 (String.mk (pad2 d)) =
      todayCompact y m d := by
  simp only [pad2]
  rw [zfillStr_two, zfillStr_two]
  rfl

/-- The record mutation of `save_to_es` on an empty-date record with no pid
and no article id: the date becomes today's dashed date, and the pid becomes
today's compact date followed by the md5 serial of the title. -/
theorem dataStep_empty_date (md5hex : String → String) (ty tm td : Nat) (data : Document)
    (hd : pyStrip (getStr data "date") = "")
    (hpid : lookupKey data "pid" = none ∨ ∃ v, lookupKey data "pid" = some v ∧ v.falsy = true)
    (hart : getStr data "article_id" = "") :
    dataStep md5hex ty tm td data =
      setKey (setKey data "date" (.str (todayDashed ty tm td))) "pid"
        (.str (todayCompact ty tm td ++ mdSerial (md5hex (getStr data "title")))) := by
  unfold dataStep
  rw [if_pos hd]
  have hpid1 : (match lookupKey (setKey data "date" (.str (todayDashed ty tm td))) "pid" with
      | none => true
      | some v => v.falsy) = true := by
    rw [lookupKey_setKey_ne data "date" "pid" _ (by decide)]
    rcases hpid with h | ⟨v, hv, hvf⟩
    · rw [h]
    · rw [hv]
      exact hvf
  have hart1 : getStr (setKey data "date" (.str (todayDashed ty tm td))) "article_id" = "" := by
    rw [getStr_setKey_ne data "date" "article_id" _ (by decide)]
    exact hart
  have hdate1 : searchDate
      (getStr (setKey data "date" (.str (todayDashed ty tm td))) "date").data =
      some (String.mk (pad4 ty), String.mk (pad2 tm), String.mk (pad2 td)) := by
    rw [getStr_of_str _ _ _ (lookupKey_setKey_self data "date" _)]
    exact searchDate_todayDashed ty tm td
  rw [ensurePid_md5_path md5hex ty tm td _ _ _ _ hpid1 hart1 hdate1]
  rw [getStr_setKey_ne data "date" "title" _ (by decide)]
  rw [todayPrefix_assemble]

/-- The main path of C10: empty-date record, no pid, no article id, an
empty store and no search fault — exactly one document is handed to the
uploader, and its date and pid fields show the run-day values. -/
theorem save_empty_date_today (md5hex : String → String) (ty tm td : Nat)
    (data : Document) (store : Store)
    (ht : pyStrip (getStr data "title") ≠ "")
    (hd : pyStrip (getStr data "date") = "")
    (hpid : lookupKey data "pid" = none ∨ ∃ v, lookupKey data "pid" = some v ∧ v.falsy = true)
    (hart : getStr data "article_id" = "")
    (hdocs : store.docs = []) :
    (save_to_es md5hex ty tm td (fun _ => false) data store).2.2 =
      [saveClean (dataStep md5hex ty tm td data)] ∧
    lookupKey (saveClean (dataStep md5hex ty tm td data)) "date" =
      some (.str (todayDashed ty tm td)) ∧
    lookupKey (saveClean (dataStep md5hex ty tm td data)) "pid" =
      some (.str (todayCompact ty tm td ++ mdSerial (md5hex (getStr data "title")))) := by
  have htne : getStr data "title" ≠ "" := by
    intro h0
    rw [h0, pyStrip_empty] at ht
    exact ht rfl
  obtain ⟨hne, hpidkey⟩ := dataStep_nonempty md5hex ty tm td data
  have hup := upload_into_empty (saveClean (dataStep md5hex ty tm td data)) store hne hpidkey hdocs
  have hds := dataStep_empty_date md5hex ty tm td data hd hpid hart
  refine ⟨?_, ?_, ?_⟩
  · unfold save_to_es
    rw [saveLoop]
    rw [if_neg ht]
    simp only [getStr_dataStep_title]
    rw [if_pos htne]
    simp only [Bool.false_eq_true, if_false]
    rw [hdocs]
    rw [if_pos hup.1]
    rfl
  · rw [lookupKey_saveClean, hds, lookupKey_setKey_ne _ "pid" "date" _ (by decide),
      lookupKey_setKey_self]
    simp [JVal.isNull, JVal.isEmptyStr, mk_ne_empty]
    exact fun h => h.symm
  · rw [lookupKey_saveClean, hds, lookupKey_setKey_self]
    have hne2 : todayCompact ty tm td ++ mdSerial (md5hex (getStr data "title")) ≠ "" :=
      append_ne_empty_right _ _ (mdSerial_ne_empty _)
    simp [JVal.isNull, JVal.isEmptyStr, hne2]

/-- Every document `save_to_es` hands to the uploader carries a non-empty
string date, whatever the record, the store, or the fault schedule. -/
theorem saveLoop_subs_dates (md5hex : String → String) (ty tm td : Nat) (sf : Nat → Bool) :
    ∀ fuel attempt data store subs,
      (∀ doc ∈ subs, ∃ s, lookupKey doc "date" = some (.str s) ∧ s ≠ "") →
      ∀ doc ∈ (saveLoop md5hex ty tm td sf fuel attempt data store subs).2.2,
        ∃ s, lookupKey doc "date" = some (.str s) ∧ s ≠ "" := by
  intro fuel
  induction fuel with
  | zero =>
    intro attempt data store subs hsubs
    exact hsubs
  | succ fuel ih =>
    intro attempt data store subs hsubs
    rw [saveLoop]
    by_cases h1 : pyStrip (getStr data "title") = ""
    · rw [if_pos h1]
      exact hsubs
    · rw [if_neg h1]
      simp only [getStr_dataStep_title]
      have hgood : ∀ doc ∈ subs ++ [saveClean (dataStep md5hex ty tm td data)],
          ∃ s, lookupKey doc "date" = some (.str s) ∧ s ≠ "" := by
        intro doc hdoc
        rcases List.mem_append.mp hdoc with hmem | hmem
        · exact hsubs doc hmem
        · rw [List.mem_singleton] at hmem
          subst hmem
          obtain ⟨s, hs, _, hsne⟩ := dataStep_date_strong md5hex ty tm td data
          refine ⟨s, ?_, hsne⟩
          rw [lookupKey_saveClean, hs]
          simp [JVal.isNull, JVal.isEmptyStr, hsne]
      have hupload : ∀ doc ∈
          ((if (upload_single_document (saveClean (dataStep md5hex ty tm td data)) false
                store).1.result = "Y" then
              ((⟨"Y", (upload_single_document (saveClean (dataStep md5hex ty tm td data)) false
                   store).1.message, none,
                 some (upload_single_document (saveClean (dataStep md5hex ty tm td data)) false
                   store).1⟩ : SaveResult),
               (upload_single_document (saveClean (dataStep md5hex ty tm td data)) false store).2,
               subs ++ [saveClean (dataStep md5hex ty tm td data)])
            else if attempt < 2 then
              saveLoop md5hex ty tm td sf fuel (attempt + 1) (dataStep md5hex ty tm td data)
                (upload_single_document (saveClean (dataStep md5hex ty tm td data)) false store).2
                (subs ++ [saveClean (dataStep md5hex ty tm td data)])
            else
              (⟨"N", "Upload failed after 3 attempts: " ++
                 (upload_single_document (saveClean (dataStep md5hex ty tm td data)) false
                   store).1.message, none, none⟩,
               (upload_single_document (saveClean (dataStep md5hex ty tm td data)) false store).2,
               subs ++ [saveClean (dataStep md5hex ty tm td data)]))).2.2,
          ∃ s, lookupKey doc "date" = some (.str s) ∧ s ≠ "" := by
        by_cases h5 : (upload_single_document (saveClean (dataStep md5hex ty tm td data)) false
            store).1.result = "Y"
        · rw [if_pos h5]
          exact hgood
        · rw [if_neg h5]
          by_cases h4 : attempt < 2
          · rw [if_pos h4]
            exact ih (attempt + 1) (dataStep md5hex ty tm td data) _ _ hgood
          · rw [if_neg h4]
            exact hgood
      by_cases h2 : getStr data "title" ≠ ""
      · rw [if_pos h2]
        by_cases h3 : sf attempt = true
        · rw [if_pos h3]
          by_cases h4 : attempt < 2
          · rw [if_pos h4]
            exact ih (attempt + 1) (dataStep md5hex ty tm td data) store subs hsubs
          · rw [if_neg h4]
            exact hupload
        · rw [if_neg h3]
          split
          · exact hsubs
          · exact hupload
      · rw [if_neg h2]
        exact hupload

/-- C10: a record whose date is empty or whitespace-only has its date
overwritten with the run day's `YYYY-MM-DD` before pid generation and
upload, so the fallback pid's date prefix is the run day's compact date
rather than anything derived from the article; every document handed to the
store has a non-empty date, and the sanitizer passes that date through to
the written document unchanged. -/
theorem empty_date_filled_with_run_day (md5hex : String → String) (ty tm td : Nat) :
    (∀ data store,
      pyStrip (getStr data "title") ≠ "" →
      pyStrip (getStr data "date") = "" →
      (lookupKey data "pid" = none ∨ ∃ v, lookupKey data "pid" = some v ∧ v.falsy = true) →
      getStr data "article_id" = "" →
      store.docs = [] →
      (save_to_es md5hex ty tm td (fun _ => false) data store).2.2 =
        [saveClean (dataStep md5hex ty tm td data)] ∧
      lookupKey (saveClean (dataStep md5hex ty tm td data)) "date" =
        some (.str (todayDashed ty tm td)) ∧
      lookupKey (saveClean (dataStep md5hex ty tm td data)) "pid" =
        some (.str (todayCompact ty tm td ++ mdSerial (md5hex (getStr data "title"))))) ∧
    (∀ sf data store, ∀ doc ∈ (save_to_es md5hex ty tm td sf data store).2.2,
      ∃ s, lookupKey doc "date" = some (.str s) ∧ s ≠ "") ∧
    (∀ d s, lookupKey d "date" = some (.str s) →
      lookupKey (cleanDocument d) "date" = some (.str s)) := by
  refine ⟨?_, ?_, ?_⟩
  · intro data store ht hd hpid hart hdocs
    exact save_empty_date_today md5hex ty tm td data store ht hd hpid hart hdocs
  · intro sf data store doc hdoc
    exact saveLoop_subs_dates md5hex ty tm td sf 3 0 data store []
      (by intro doc h; cases h) doc hdoc
  · intro d s h
    rw [lookupKey_cleanDocument d "date" rfl, h]
    have hcf : cleanField "date" (JVal.str s) = JVal.str s := by
      unfold cleanField
      rw [show (JVal.str s).isNull = false from rfl]
      simp only [Bool.false_eq_true, if_false]
      rw [if_neg (by decide : ¬("date" = "dt" ∨ "date" = "date_created"))]
    show some (cleanField "date" (JVal.str s)) = some (JVal.str s)
    rw [hcf]

/-- Witness for C10: a record with a title and no date at all, uploaded on
2025-10-12, is submitted with `date = "2025-10-12"` and
`pid = "20251012" ++ serial`. -/
theorem empty_date_filled_with_run_day_witness :
    lookupKey (saveClean (dataStep (fun _ => "0123456789abcdef0123456789abcdef") 2025 10 12
        [("title", JVal.str "T")])) "date" =
      some (JVal.str (todayDashed 2025 10 12)) ∧
    lookupKey (saveClean (dataStep (fun _ => "0123456789abcdef0123456789abcdef") 2025 10 12
        [("title", JVal.str "T")])) "pid" =
      some (JVal.str (todayCompact 2025 10 12 ++
        mdSerial ((fun _ : String => "0123456789abcdef0123456789abcdef")
          (getStr [("title", JVal.str "T")] "title")))) := by
  have h := (empty_date_filled_with_run_day (fun _ => "0123456789abcdef0123456789abcdef")
    2025 10 12).1 [("title", JVal.str "T")] ⟨true, ["pid"], [], 0⟩
    (by decide) rfl (Or.inl rfl) rfl rfl
  exact ⟨h.2.1, h.2.2⟩

/-! ## C1: the cursor-update rule -/

theorem processEntry_dup_const (pres : String → ProcStatus × Bool) (last : Option String)
    (s : RunState) (t : String) (h : s.dup = true) :
    processEntry pres last s t = s := by
  unfold processEntry
  rw [if_pos h]

theorem foldl_dup_const (pres : String → ProcStatus × Bool) (last : Option String)
    (ts : List String) : ∀ s : RunState, s.dup = true →
    ts.foldl (processEntry pres last) s = s := by
  induction ts with
  | nil => intro s _; rfl
  | cons t ts ih =>
    intro s h
    rw [List.foldl_cons, processEntry_dup_const pres last s t h, ih s h]

theorem processEntry_inv (pres : String → ProcStatus × Bool) (last : Option String)
    (s : RunState) (t : String) (h : s.firstTitle.isSome ↔ 0 < s.total) :
    (processEntry pres last s t).firstTitle.isSome ↔ 0 < (processEntry pres last s t).total := by
  unfold processEntry
  split
  · exact h
  · split
    · exact h
    · split
      · exact h
      · split
        · simpa using h
        · cases s.firstTitle <;> simp

theorem foldl_inv (pres : String → ProcStatus × Bool) (last : Option String)
    (ts : List String) : ∀ s : RunState, (s.firstTitle.isSome ↔ 0 < s.total) →
    ((ts.foldl (processEntry pres last) s).firstTitle.isSome ↔
      0 < (ts.foldl (processEntry pres last) s).total) := by
  induction ts with
  | nil => intro s h; exact h
  | cons t ts ih =>
    intro s h
    rw [List.foldl_cons]
    exact ih _ (processEntry_inv pres last s t h)

theorem runPages_inv (pres : String → ProcStatus × Bool) (last : Option String) :
    ∀ (fuel : Nat) (pages : List Page) (s : RunState),
      (s.firstTitle.isSome ↔ 0 < s.total) →
      ((runPages pres last fuel pages s).firstTitle.isSome ↔
        0 < (runPages pres last fuel pages s).total) := by
  intro fuel
  induction fuel with
  | zero => intro pages s h; exact h
  | succ fuel ih =>
    intro pages s h
    cases pages with
    | nil => exact h
    | cons p rest =>
      rw [runPages]
      split
      · exact h
      · split
        · exact h
        · dsimp only
          split
          · exact foldl_inv pres last p.entries s h
          · split
            · exact foldl_inv pres last p.entries s h
            · exact ih rest _ (foldl_inv pres last p.entries s h)

/-- C1: the ledger cursor is written (with the first title seen) exactly
when at least one item was processed and the stop condition never fired; in
particular a run in which the stop condition fired performs no cursor write,
keeping the previous cursor value. -/
theorem cursor_update_rule (pres : String → ProcStatus × Bool) (last : Option String)
    (L : List String) (pages : List Page) (mp : Nat) :
    ((main_process pres last L pages mp).2 ≠ none ↔
      (0 < (main_process pres last L pages mp).1.total ∧
        (main_process pres last L pages mp).1.dup = false)) ∧
    ((main_process pres last L pages mp).2 ≠ none →
      (main_process pres last L pages mp).2 =
        (main_process pres last L pages mp).1.firstTitle) ∧
    ((main_process pres last L pages mp).1.dup = true →
      (main_process pres last L pages mp).2 = none) := by
  have hinv := runPages_inv pres last mp pages (initState L) (by simp [initState])
  simp only [main_process]
  by_cases hc : 0 < (runPages pres last mp pages (initState L)).total ∧
      (runPages pres last mp pages (initState L)).firstTitle ≠ none ∧
      (runPages pres last mp pages (initState L)).dup = false
  · rw [if_pos hc]
    refine ⟨⟨fun _ => ⟨hc.1, hc.2.2⟩, fun _ => hc.2.1⟩, fun _ => rfl, ?_⟩
    intro hdup
    rw [hdup] at hc
    cases hc.2.2
  · rw [if_neg hc]
    refine ⟨⟨fun h => absurd rfl h, ?_⟩, fun h => absurd rfl h, fun _ => rfl⟩
    intro ⟨h1, h2⟩
    exfalso
    apply hc
    refine ⟨h1, ?_, h2⟩
    rw [← Option.isSome_iff_ne_none]
    exact hinv.mpr h1

/-- Witness for C1: a two-entry run with no previous cursor processes both
entries and writes the first title as the new cursor. -/
theorem cursor_update_rule_witness :
    (main_process (fun _ => (ProcStatus.success, true)) none []
      [⟨true, ["B", "A"], false⟩] 5).2 =
      (main_process (fun _ => (ProcStatus.success, true)) none []
        [⟨true, ["B", "A"], false⟩] 5).1.firstTitle :=
  (cursor_update_rule (fun _ => (ProcStatus.success, true)) none []
    [⟨true, ["B", "A"], false⟩] 5).2.1 (by decide)

/-! ## C2: stop-condition prefix behaviour -/

theorem contains_eq_false (l : List String) (a : String) (h : a ∉ l) :
    l.contains a = false := by
  induction l with
  | nil => rfl
  | cons b rest ih =>
    have hrest : a ∉ rest := fun hr => h (List.mem_cons_of_mem b hr)
    have hab : (a == b) = false := by
      cases hx : a == b with
      | false => rfl
      | true => exact absurd (by rw [eq_of_beq hx]; exact List.mem_cons_self b rest) h
    simp only [List.contains_cons, hab, ih hrest]
    rfl

theorem lastMatches_ne (last0 t : String) (h : t ≠ last0) :
    lastMatches (some last0) t = false := by
  show (if last0 = "" then false else if t = last0 then true else false) = false
  by_cases h0 : last0 = ""
  · rw [if_pos h0]
  · rw [if_neg h0, if_neg h]

theorem lastMatches_self (last0 : String) (h : last0 ≠ "") :
    lastMatches (some last0) last0 = true := by
  show (if last0 = "" then false else if last0 = last0 then true else false) = true
  rw [if_neg h, if_pos rfl]

theorem processEntry_step (pres : String → ProcStatus × Bool) (last : Option String)
    (s : RunState) (t : String) (hdup : s.dup = false) (ht : t ≠ "")
    (hl : s.ledger.contains t = false) (hlm : lastMatches last t = false) :
    (processEntry pres last s t).dup = false ∧
    (processEntry pres last s t).total = s.total + 1 ∧
    (processEntry pres last s t).ledger =
      (if (pres t).2 then s.ledger ++ [t] else s.ledger) := by
  unfold processEntry
  rw [if_neg (by simp [hdup]), if_neg ht,
    if_neg (by intro hx; rw [hl] at hx; cases hx),
    if_neg (by simp [hlm])]
  exact ⟨hdup, rfl, rfl⟩

theorem processEntry_stop (pres : String → ProcStatus × Bool) (last : Option String)
    (s : RunState) (t : String) (hdup : s.dup = false) (ht : t ≠ "")
    (hl : s.ledger.contains t = false) (hlm : lastMatches last t = true) :
    processEntry pres last s t = { s with dup := true } := by
  unfold processEntry
  rw [if_neg (by simp [hdup]), if_neg ht,
    if_neg (by intro hx; rw [hl] at hx; cases hx),
    if_pos hlm]

theorem foldl_fresh (pres : String → ProcStatus × Bool) (last : Option String) :
    ∀ (ts : List String) (s : RunState),
      s.dup = false →
      (∀ t ∈ ts, t ≠ "" ∧ t ∉ s.ledger ∧ lastMatches last t = false) →
      ts.Nodup →
      (ts.foldl (processEntry pres last) s).dup = false ∧
      (ts.foldl (processEntry pres last) s).total = s.total + ts.length ∧
      (ts.foldl (processEntry pres last) s).ledger =
        s.ledger ++ ts.filter (fun t => (pres t).2) := by
  intro ts
  induction ts with
  | nil =>
    intro s h1 _ _
    exact ⟨h1, rfl, by simp⟩
  | cons t ts ih =>
    intro s hdup hfresh hnodup
    obtain ⟨ht, hl, hlm⟩ := hfresh t (List.mem_cons_self t ts)
    have hstep := processEntry_step pres last s t hdup ht (contains_eq_false _ _ hl) hlm
    rw [List.foldl_cons]
    have hfresh2 : ∀ u ∈ ts, u ≠ "" ∧
        u ∉ (processEntry pres last s t).ledger ∧ lastMatches last u = false := by
      intro u hu
      obtain ⟨hu1, hu2, hu3⟩ := hfresh u (List.mem_cons_of_mem t hu)
      refine ⟨hu1, ?_, hu3⟩
      rw [hstep.2.2]
      have hut : u ≠ t := by
        intro he
        subst he
        exact (List.nodup_cons.mp hnodup).1 hu
      split
      · intro hmem
        rcases List.mem_append.mp hmem with hm | hm
        · exact hu2 hm
        · rw [List.mem_singleton] at hm
          exact hut hm
      · exact hu2
    have hih := ih (processEntry pres last s t) hstep.1 hfresh2 (List.nodup_cons.mp hnodup).2
    refine ⟨hih.1, ?_, ?_⟩
    · rw [hih.2.1, hstep.2.1]
      simp only [List.length_cons]
      omega
    · rw [hih.2.2, hstep.2.2, List.filter_cons]
      cases hb : (pres t).2 with
      | true => simp
      | false => simp

theorem foldl_stop (pres : String → ProcStatus × Bool) (last0 : String)
    (s : RunState) (tpre tpost : List String)
    (hdup : s.dup = false)
    (hfresh : ∀ t ∈ tpre, t ≠ "" ∧ t ∉ s.ledger ∧ t ≠ last0)
    (hnodup : tpre.Nodup)
    (h0ne : last0 ≠ "") (h0l : last0 ∉ s.ledger) (h0p : last0 ∉ tpre) :
    (tpre ++ last0 :: tpost).foldl (processEntry pres (some last0)) s =
      { tpre.foldl (processEntry pres (some last0)) s with dup := true } ∧
    ((tpre ++ last0 :: tpost).foldl (processEntry pres (some last0)) s).total =
      s.total + tpre.length := by
  have hfresh2 : ∀ t ∈ tpre, t ≠ "" ∧ t ∉ s.ledger ∧ lastMatches (some last0) t = false :=
    fun t ht => ⟨(hfresh t ht).1, (hfresh t ht).2.1, lastMatches_ne last0 t (hfresh t ht).2.2⟩
  have hpre := foldl_fresh pres (some last0) tpre s hdup hfresh2 hnodup
  have hstop := processEntry_stop pres (some last0)
    (tpre.foldl (processEntry pres (some last0)) s) last0 hpre.1 h0ne
    (contains_eq_false _ _ (by
      rw [hpre.2.2]
      intro hmem
      rcases List.mem_append.mp hmem with hm | hm
      · exact h0l hm
      · exact h0p (List.mem_of_mem_filter hm)))
    (lastMatches_self last0 h0ne)
  rw [List.foldl_append, List.foldl_cons, hstop,
    foldl_dup_const pres (some last0) tpost _ rfl]
  exact ⟨rfl, hpre.2.1⟩

/-- The state after the driver has walked a sequence of pages without
stopping. -/
def pagesFold (pres : String → ProcStatus × Bool) (last : Option String)
    (s : RunState) (pre : List Page) : RunState :=
  pre.foldl (fun s p => processPage pres last s p) s

theorem runPages_pre (pres : String → ProcStatus × Bool) (last : Option String) :
    ∀ (pre : List Page) (fuel : Nat) (tail : List Page) (s : RunState),
      pre.length < fuel →
      s.dup = false →
      (∀ p ∈ pre, p.hasArticles = true ∧ p.hasNext = true) →
      (∀ t ∈ (pre.map Page.entries).flatten,
        t ≠ "" ∧ t ∉ s.ledger ∧ lastMatches last t = false) →
      ((pre.map Page.entries).flatten).Nodup →
      runPages pres last fuel (pre ++ tail) s =
        runPages pres last (fuel - pre.length) tail (pagesFold pres last s pre) ∧
      (pagesFold pres last s pre).dup = false ∧
      (pagesFold pres last s pre).total =
        s.total + ((pre.map Page.entries).flatten).length ∧
      (pagesFold pres last s pre).ledger =
        s.ledger ++ ((pre.map Page.entries).flatten).filter (fun t => (pres t).2) := by
  intro pre
  induction pre with
  | nil =>
    intro fuel tail s _ hdup _ _ _
    exact ⟨rfl, hdup, by simp [pagesFold], by simp [pagesFold]⟩
  | cons p pre ih =>
    intro fuel tail s hlen hdup hA hfresh hnodup
    cases fuel with
    | zero => omega
    | succ fuel =>
      have hflat : ((p :: pre).map Page.entries).flatten =
          p.entries ++ (pre.map Page.entries).flatten := rfl
      rw [hflat] at hfresh hnodup
      have hfp : ∀ t ∈ p.entries, t ≠ "" ∧ t ∉ s.ledger ∧ lastMatches last t = false :=
        fun t ht => hfresh t (List.mem_append.mpr (Or.inl ht))
      have hnp : p.entries.Nodup := (List.nodup_append.mp hnodup).1
      have hfold := foldl_fresh pres last p.entries s hdup hfp hnp
      have hA1 := hA p (List.mem_cons_self p pre)
      have hstep : runPages pres last (fuel + 1) ((p :: pre) ++ tail) s =
          runPages pres last fuel (pre ++ tail) (processPage pres last s p) := by
        rw [show (p :: pre) ++ tail = p :: (pre ++ tail) from rfl, runPages]
        rw [if_neg (by simp [hdup]), if_neg (by simp [hA1.1])]
        dsimp only
        rw [if_neg (by simp [processPage, hfold.1]), if_neg (by simp [hA1.2])]
      have hdisj := (List.nodup_append.mp hnodup).2.2
      have hfresh3 : ∀ t ∈ (pre.map Page.entries).flatten,
          t ≠ "" ∧ t ∉ (processPage pres last s p).ledger ∧ lastMatches last t = false := by
        intro t ht
        obtain ⟨h1, h2, h3⟩ := hfresh t (List.mem_append.mpr (Or.inr ht))
        refine ⟨h1, ?_, h3⟩
        show t ∉ (p.entries.foldl (processEntry pres last) s).ledger
        rw [hfold.2.2]
        intro hmem
        rcases List.mem_append.mp hmem with hm | hm
        · exact h2 hm
        · exact hdisj (List.mem_of_mem_filter hm) ht
      have hih := ih fuel tail (processPage pres last s p)
        (by simpa using Nat.lt_of_succ_lt_succ (by simpa using hlen))
        hfold.1 (fun q hq => hA q (List.mem_cons_of_mem p hq)) hfresh3
        (List.nodup_append.mp hnodup).2.1
      have hpf : pagesFold pres last s (p :: pre) =
          pagesFold pres last (processPage pres last s p) pre := rfl
      refine ⟨?_, ?_, ?_, ?_⟩
      · rw [hstep, hih.1, hpf,
          show fuel + 1 - (p :: pre).length = fuel - pre.length from by simp]
      · rw [hpf]
        exact hih.2.1
      · rw [hpf, hih.2.2.1]
        show (p.entries.foldl (processEntry pres last) s).total + _ = _
        rw [hfold.2.1, hflat]
        simp [Nat.add_assoc]
      · rw [hpf, hih.2.2.2]
        show (p.entries.foldl (processEntry pres last) s).ledger ++ _ = _
        rw [hfold.2.2, hflat, List.filter_append, List.append_assoc]

theorem runPages_stop_page (pres : String → ProcStatus × Bool) (last0 : String)
    (f : Nat) (b : Bool) (rest : List Page) (s : RunState) (tpre tpost : List String)
    (hdup : s.dup = false)
    (hfresh : ∀ t ∈ tpre, t ≠ "" ∧ t ∉ s.ledger ∧ t ≠ last0)
    (hnodup : tpre.Nodup) (h0ne : last0 ≠ "") (h0l : last0 ∉ s.ledger)
    (h0p : last0 ∉ tpre) :
    runPages pres (some last0) (f + 1) (⟨true, tpre ++ last0 :: tpost, b⟩ :: rest) s =
      { tpre.foldl (processEntry pres (some last0)) s with dup := true } := by
  have hstop := foldl_stop pres last0 s tpre tpost hdup hfresh hnodup h0ne h0l h0p
  rw [runPages]
  rw [if_neg (by simp [hdup]), if_neg (by simp)]
  dsimp only
  rw [show processPage pres (some last0) s ⟨true, tpre ++ last0 :: tpost, b⟩ =
      (tpre ++ last0 :: tpost).foldl (processEntry pres (some last0)) s from rfl]
  rw [hstop.1]
  rw [if_pos rfl]

/-- C2: when the overall entry at (0-based) position `|pre entries| + |tpre|`
of the listing — all earlier titles being distinct, non-empty and absent
from the backup ledger — equals the stored cursor `last0`, the driver
processes exactly the earlier entries (the processed counter equals their
number), sets the duplicate flag, performs no cursor write, and the whole
run result is unchanged when everything after that entry (the rest of its
page and all later pages) is removed: nothing after the stop position is
examined. -/
theorem stop_condition_prefix (pres : String → ProcStatus × Bool) (last0 : String)
    (L : List String) (pre : List Page) (tpre tpost : List String) (b : Bool)
    (rest : List Page) (mp : Nat)
    (hmp : pre.length < mp)
    (hApre : ∀ p ∈ pre, p.hasArticles = true ∧ p.hasNext = true)
    (hfresh : ∀ t ∈ (pre.map Page.entries).flatten ++ tpre ++ [last0], t ≠ "" ∧ t ∉ L)
    (hnodup : ((pre.map Page.entries).flatten ++ tpre ++ [last0]).Nodup) :
    main_process pres (some last0) L (pre ++ ⟨true, tpre ++ last0 :: tpost, b⟩ :: rest) mp =
      main_process pres (some last0) L (pre ++ [⟨true, tpre ++ [last0], b⟩]) mp ∧
    (main_process pres (some last0) L
      (pre ++ ⟨true, tpre ++ last0 :: tpost, b⟩ :: rest) mp).1.total =
      (pre.map Page.entries).flatten.length + tpre.length ∧
    (main_process pres (some last0) L
      (pre ++ ⟨true, tpre ++ last0 :: tpost, b⟩ :: rest) mp).1.dup = true ∧
    (main_process pres (some last0) L
      (pre ++ ⟨true, tpre ++ last0 :: tpost, b⟩ :: rest) mp).2 = none := by
  have hnd1 := List.nodup_append.mp hnodup
  have hnd2 := List.nodup_append.mp hnd1.1
  have hJn : ((pre.map Page.entries).flatten).Nodup := hnd2.1
  have htn : tpre.Nodup := hnd2.2.1
  have hJt : ((pre.map Page.entries).flatten).Disjoint tpre := hnd2.2.2
  have hd0 : ∀ t ∈ (pre.map Page.entries).flatten ++ tpre, t ≠ last0 := by
    intro t ht he
    exact hnd1.2.2 ht (by rw [he]; exact List.mem_singleton.mpr rfl)
  have h0 := hfresh last0 (by
    refine List.mem_append.mpr (Or.inr ?_)
    exact List.mem_singleton.mpr rfl)
  have h0J : last0 ∉ (pre.map Page.entries).flatten := fun hm =>
    hd0 last0 (List.mem_append.mpr (Or.inl hm)) rfl
  have h0t : last0 ∉ tpre := fun hm =>
    hd0 last0 (List.mem_append.mpr (Or.inr hm)) rfl
  have hfreshJ : ∀ t ∈ (pre.map Page.entries).flatten,
      t ≠ "" ∧ t ∉ (initState L).ledger ∧ lastMatches (some last0) t = false := by
    intro t ht
    have hm : t ∈ (pre.map Page.entries).flatten ++ tpre ++ [last0] :=
      List.mem_append.mpr (Or.inl (List.mem_append.mpr (Or.inl ht)))
    exact ⟨(hfresh t hm).1, (hfresh t hm).2,
      lastMatches_ne last0 t (hd0 t (List.mem_append.mpr (Or.inl ht)))⟩
  have hrunFull := runPages_pre pres (some last0) pre mp
    (⟨true, tpre ++ last0 :: tpost, b⟩ :: rest) (initState L) hmp rfl hApre hfreshJ hJn
  have hrunTrunc := runPages_pre pres (some last0) pre mp
    [⟨true, tpre ++ [last0], b⟩] (initState L) hmp rfl hApre hfreshJ hJn
  obtain ⟨f, hf⟩ : ∃ f, mp - pre.length = f + 1 := ⟨mp - pre.length - 1, by omega⟩
  have hfreshT : ∀ t ∈ tpre,
      t ≠ "" ∧ t ∉ (pagesFold pres (some last0) (initState L) pre).ledger ∧ t ≠ last0 := by
    intro t ht
    have hm : t ∈ (pre.map Page.entries).flatten ++ tpre ++ [last0] :=
      List.mem_append.mpr (Or.inl (List.mem_append.mpr (Or.inr ht)))
    refine ⟨(hfresh t hm).1, ?_, hd0 t (List.mem_append.mpr (Or.inr ht))⟩
    rw [hrunFull.2.2.2]
    intro hmem
    rcases List.mem_append.mp hmem with hm2 | hm2
    · exact (hfresh t hm).2 (by simpa [initState] using hm2)
    · exact hJt (List.mem_of_mem_filter hm2) ht
  have h0L : last0 ∉ (pagesFold pres (some last0) (initState L) pre).ledger := by
    rw [hrunFull.2.2.2]
    intro hmem
    rcases List.mem_append.mp hmem with hm2 | hm2
    · exact h0.2 (by simpa [initState] using hm2)
    · exact h0J (List.mem_of_mem_filter hm2)
  have hstopFull := runPages_stop_page pres last0 f b rest
    (pagesFold pres (some last0) (initState L) pre) tpre tpost
    hrunFull.2.1 hfreshT htn h0.1 h0L h0t
  have hstopTrunc := runPages_stop_page pres last0 f b ([] : List Page)
    (pagesFold pres (some last0) (initState L) pre) tpre ([] : List String)
    hrunFull.2.1 hfreshT htn h0.1 h0L h0t
  have hSfull : runPages pres (some last0) mp
      (pre ++ ⟨true, tpre ++ last0 :: tpost, b⟩ :: rest) (initState L) =
      { tpre.foldl (processEntry pres (some last0))
          (pagesFold pres (some last0) (initState L) pre) with dup := true } := by
    rw [hrunFull.1, hf]
    exact hstopFull
  have hStrunc : runPages pres (some last0) mp
      (pre ++ [⟨true, tpre ++ [last0], b⟩]) (initState L) =
      { tpre.foldl (processEntry pres (some last0))
          (pagesFold pres (some last0) (initState L) pre) with dup := true } := by
    rw [hrunTrunc.1, hf]
    exact hstopTrunc
  have hfreshT2 : ∀ t ∈ tpre, t ≠ "" ∧
      t ∉ (pagesFold pres (some last0) (initState L) pre).ledger ∧
      lastMatches (some last0) t = false := by
    intro t ht
    obtain ⟨h1, h2, h3⟩ := hfreshT t ht
    exact ⟨h1, h2, lastMatches_ne last0 t h3⟩
  have hfoldT := foldl_fresh pres (some last0) tpre
    (pagesFold pres (some last0) (initState L) pre) hrunFull.2.1 hfreshT2 htn
  refine ⟨?_, ?_, ?_, ?_⟩
  · simp only [main_process, hSfull, hStrunc]
  · simp only [main_process, hSfull]
    show (tpre.foldl (processEntry pres (some last0))
      (pagesFold pres (some last0) (initState L) pre)).total = _
    rw [hfoldT.2.1, hrunFull.2.2.1]
    simp [initState]
  · simp only [main_process, hSfull]
  · simp only [main_process, hSfull]
    rw [if_neg (by
      intro hc
      exact absurd hc.2.2 (by simp))]

/-- Witness for C2: the spec's end-to-end scenario — page 1 lists
`C, B, A` with cursor `B`: one entry processed, the stop fires, and the
cursor is not advanced. -/
theorem stop_condition_prefix_witness :
    (main_process (fun _ => (ProcStatus.success, true)) (some "B") []
      [⟨true, ["C", "B", "A"], false⟩] 40).1.total = 1 ∧
    (main_process (fun _ => (ProcStatus.success, true)) (some "B") []
      [⟨true, ["C", "B", "A"], false⟩] 40).1.dup = true ∧
    (main_process (fun _ => (ProcStatus.success, true)) (some "B") []
      [⟨true, ["C", "B", "A"], false⟩] 40).2 = none := by
  have h := stop_condition_prefix (fun _ => (ProcStatus.success, true)) "B" [] []
    ["C"] ["A"] false [] 40 (by norm_num) (by intro p hp; cases hp)
    (by decide) (by decide)
  exact ⟨by simpa using h.2.1, h.2.2.1, h.2.2.2⟩
